import Mathlib

/-! TCP listener registry (net/tcp/tcp_listen.c)

A shallow embedding of the listener table `tcp_listenports` and of the
functions that read and write it.

* A connection reference (`FAR struct tcp_conn_s *`) is an address, a natural
  number; the null pointer is address `0`.
* The field `conn->lport` is read through a memory `lport : Ptr → Nat` giving
  the local port stored in the record at each address.  The functions of this
  file never write that field, so the memory is a fixed argument.
* The table `tcp_listenports[CONFIG_NET_MAX_LISTENPORTS]` is a list of slots;
  its length is the capacity `CONFIG_NET_MAX_LISTENPORTS`.  A `for (ndx = 0;
  ndx < CONFIG_NET_MAX_LISTENPORTS; ndx++)` scan is a recursion over the list,
  head first, so the head is slot `0`.
* A function that writes the table returns its `int` result together with the
  table it leaves behind.
-/

namespace TcpListen

/-- An address of a `struct tcp_conn_s`. -/
abbrev Ptr := Nat

/-- The null pointer. -/
def NULL : Ptr := 0

/-- The success return value `OK`. -/
def OK : Int := 0

/-- Modelled from the spec: the header errno.h is not among the sources.
`EINVAL` is the code `tcp_unlisten` returns (negated) when no slot holds the
connection, the outcome the spec calls `NotFound`. -/
def EINVAL : Int := 22

/-- Modelled from the spec: the header errno.h is not among the sources.
`EADDRINUSE` is the code `tcp_listen` returns (negated) when the port already
has a listener, the outcome the spec calls `AddressInUse`. -/
def EADDRINUSE : Int := 98

/-- Modelled from the spec: the header errno.h is not among the sources.
`ENOBUFS` is the code `tcp_listen` returns (negated) when no slot is free, the
outcome the spec calls `NoBuffers`. -/
def ENOBUFS : Int := 105

/-- The listener table `tcp_listenports`: one entry per slot, `NULL` for an
unassigned slot. -/
abbrev Table := List Ptr

/-- The function `tcp_findlistener`: examine the slots in index order and
return the first one that is assigned (`conn` non-null) and whose connection
has `conn->lport == portno`; `NULL` when the scan ends. -/
def tcp_findlistener (lport : Ptr → Nat) : Table → Nat → Ptr
  | [], _ => NULL
  | conn :: rest, portno =>
    if conn ≠ NULL ∧ lport conn = portno then conn
    else tcp_findlistener lport rest portno

/-- The function `tcp_islistener`: `tcp_findlistener(portno) != NULL`. -/
def tcp_islistener (lport : Ptr → Nat) (tbl : Table) (portno : Nat) : Bool :=
  decide (tcp_findlistener lport tbl portno ≠ NULL)

/-- The function `tcp_listeninit`: every one of the `n` slots is set to
`NULL`. -/
def tcp_listeninit (n : Nat) : Table := List.replicate n NULL

/-- The function `tcp_unlisten`: `ret` starts as `-EINVAL`; the first slot
with `tcp_listenports[ndx] == conn` is set to `NULL`, `ret` becomes `OK` and
the loop breaks. -/
def tcp_unlisten : Table → Ptr → Int × Table
  | [], _ => (-EINVAL, [])
  | slot :: rest, conn =>
    if slot = conn then (OK, NULL :: rest)
    else ((tcp_unlisten rest conn).1, slot :: (tcp_unlisten rest conn).2)

/-- The slot search of `tcp_listen` (its `else` branch): `ret` starts as
`-ENOBUFS`; the first slot with `!tcp_listenports[ndx]` receives `conn`, `ret`
becomes `OK` and the loop breaks. -/
def tcp_listen_scan (conn : Ptr) : Table → Int × Table
  | [] => (-ENOBUFS, [])
  | slot :: rest =>
    if slot = NULL then (OK, conn :: rest)
    else ((tcp_listen_scan conn rest).1, slot :: (tcp_listen_scan conn rest).2)

/-- The function `tcp_listen`: refuse with `-EADDRINUSE` when
`tcp_islistener(conn->lport)`, otherwise search for a free slot. -/
def tcp_listen (lport : Ptr → Nat) (tbl : Table) (conn : Ptr) : Int × Table :=
  if tcp_islistener lport tbl (lport conn) then (-EADDRINUSE, tbl)
  else tcp_listen_scan conn tbl

/-- A call of one of the two functions that write the table. -/
inductive Call where
  | listen (conn : Ptr)
  | unlisten (conn : Ptr)
  deriving DecidableEq, Repr

/-- The table left behind by one call (its return value dropped). -/
def Call.apply (lport : Ptr → Nat) (tbl : Table) : Call → Table
  | Call.listen conn => (tcp_listen lport tbl conn).2
  | Call.unlisten conn => (tcp_unlisten tbl conn).2

/-- The table left behind by a sequence of calls, made in order. -/
def runCalls (lport : Ptr → Nat) (tbl : Table) (calls : List Call) : Table :=
  calls.foldl (Call.apply lport) tbl

/-- The one-listener-per-port invariant: two occupied slots (entries that are
not `NULL`) whose connections have the same local port are the same slot.  A
connection held by two slots has one port, so the invariant also says that no
connection appears twice. -/
def OnePerPort (lport : Ptr → Nat) (tbl : Table) : Prop :=
  ∀ i < tbl.length, ∀ j < tbl.length,
    tbl.getD i NULL ≠ NULL → tbl.getD j NULL ≠ NULL →
    lport (tbl.getD i NULL) = lport (tbl.getD j NULL) → i = j

instance (lport : Ptr → Nat) (tbl : Table) : Decidable (OnePerPort lport tbl) := by
  unfold OnePerPort
  infer_instance

/-- The state in which `conn` is the registered listener of its port: some slot
holds `conn`, and an occupied slot with the port of `conn` holds `conn`. -/
def Registered (lport : Ptr → Nat) (conn : Ptr) (tbl : Table) : Prop :=
  conn ∈ tbl ∧ ∀ c ∈ tbl, c ≠ NULL → lport c = lport conn → c = conn

/-- The calls `tcp_listen(c)`, made in order for each `c` of `conns` from the
table `tbl`, all return `OK`. -/
def listenAllOK (lport : Ptr → Nat) : Table → List Ptr → Bool
  | _, [] => true
  | tbl, c :: cs =>
    decide ((tcp_listen lport tbl c).1 = OK) &&
      listenAllOK lport (tcp_listen lport tbl c).2 cs

/-- Modelled from the spec: the constant `ERROR` (sys/types.h) is not among the
sources.  It is the value `tcp_accept_connection` returns when nobody takes the
connection, the outcome the spec calls `Rejected`. -/
def ERROR : Int := -1

/-- A call made by `tcp_accept_connection` to code outside the file, in the
order of the calls. -/
inductive Event where
  /-- The call `listener->accept(listener, conn)`. -/
  | accept (listener conn : Ptr)
  /-- The call `tcp_backlogadd(listener, conn)`. -/
  | backlogadd (listener conn : Ptr)
  /-- The call `tcp_callback(dev, listener, UIP_BACKLOG)`. -/
  | callback (dev listener : Ptr)
  deriving DecidableEq, Repr

/-- What `tcp_accept_connection` reads from outside the file. -/
structure AcceptEnv where
  /-- Whether `CONFIG_NET_TCPBACKLOG` is defined. -/
  CONFIG_NET_TCPBACKLOG : Bool
  /-- The field `accept` of the record at an address: `none` for a null
  function pointer, else the handler, from `(listener, conn)` to its `int`
  result. -/
  accept : Ptr → Option (Ptr → Ptr → Int)
  /-- The result of `tcp_backlogadd(listener, conn)`: `OK` when the connection
  was queued. -/
  tcp_backlogadd : Ptr → Ptr → Int

/-- The function `tcp_accept_connection`: its `int` result and the calls it
made.  `ret` starts as `ERROR`.  With a listener for `portno`: when
`listener->accept` is set, `ret` is the result of the handler; otherwise, under
`#ifdef CONFIG_NET_TCPBACKLOG`, `ret` is the result of `tcp_backlogadd`, and
`tcp_callback` is called when that is `OK`. -/
def tcp_accept_connection (lport : Ptr → Nat) (env : AcceptEnv) (tbl : Table)
    (dev conn : Ptr) (portno : Nat) : Int × List Event :=
  let listener := tcp_findlistener lport tbl portno
  if listener ≠ NULL then
    match env.accept listener with
    | some handler => (handler listener conn, [Event.accept listener conn])
    | none =>
      if env.CONFIG_NET_TCPBACKLOG then
        let ret := env.tcp_backlogadd listener conn
        if ret = OK then
          (ret, [Event.backlogadd listener conn, Event.callback dev listener])
        else (ret, [Event.backlogadd listener conn])
      else (ERROR, [])
  else (ERROR, [])

/-- The operation `find_listener(port)` in the words of the spec: a linear
scan of all slots that returns the first match, a slot that is not empty and
whose connection has local port `port`; `none` when no slot matches. -/
def find_listener (lport : Ptr → Nat) (tbl : Table) (port : Nat) : Option Ptr :=
  tbl.find? (fun c => decide (c ≠ NULL ∧ lport c = port))

/-- The operation `is_listening(port)` in the words of the spec:
`find_listener(port) != none`. -/
def is_listening (lport : Ptr → Nat) (tbl : Table) (port : Nat) : Bool :=
  (find_listener lport tbl port).isSome

/-- A memory for the evaluated instances: the record at address `c` has local
port `80 + c % 2`, so addresses of equal parity share a port. -/
def demoPort (c : Ptr) : Nat := 80 + c % 2

end TcpListen

/-! TCP receive window (net/tcp/tcp_recvwindow.c)

Machine integers are integers with the reduction of their type written out:
`int` is 32 bits wide (the ARM targets of this tree), `size_t` and `uint32_t`
are 32 bits, `uint16_t` is 16 bits.  A value of an unsigned type is a natural
number, a value of type `int` is an integer.  The configuration constants
`CONFIG_IOB_*` are sizes and counts, natural numbers, and enter the `int`
arithmetic of the code as integers.
-/

namespace TcpRecvWindow

/-- The constant `UINT16_MAX`. -/
def UINT16_MAX : Nat := 65535

/-- The constant `INT_MAX` of a 32-bit `int`. -/
def INT_MAX : Int := 2147483647

/-- The result of an `int` operation whose mathematical value is `x`.  It is
`x` itself when `x` lies in `-2^31 .. INT_MAX`, the range of `int`.  Outside
that range C leaves the operation undefined: the function is kept total there
by the two's-complement value of the low 32 bits, which stands for no
particular build, and every statement about a product below assumes that the
product lies in the range of `int`. -/
def toInt32 (x : Int) : Int := (x + 2147483648) % 4294967296 - 2147483648

/-- Conversion to `uint32_t` (and to the 32-bit `size_t`): reduction modulo
`2^32`. -/
def toUInt32 (x : Int) : Nat := (x % 4294967296).toNat

/-- Conversion to `uint16_t`: reduction modulo `2^16`. -/
def toUInt16 (x : Int) : Nat := (x % 65536).toNat

/-- The configuration constants of the I/O buffer pool used by the file. -/
structure IobConfig where
  /-- The number of I/O buffers of the pool. -/
  CONFIG_IOB_NBUFFERS : Nat
  /-- The number of buffers held back from throttled callers; `0` disables
  throttling. -/
  CONFIG_IOB_THROTTLE : Nat
  /-- The payload size of one buffer, in bytes. -/
  CONFIG_IOB_BUFSIZE : Nat
  deriving DecidableEq, Repr

/-- The counters of the buffer pool at the time of a call: what the three
reads of `tcp_get_recvwindow` return. -/
structure IobPool where
  /-- The value of `iob_navail(true)`: available buffers, throttle reserve
  left out. -/
  navail_throttled : Int
  /-- The value of `iob_navail(false)`: available buffers, throttle reserve
  included. -/
  navail : Int
  /-- The value of `iob_qentry_navail()`: available buffer-chain slots. -/
  qentry_navail : Int
  deriving DecidableEq, Repr

/-- Modelled from the spec: the function `iob_navail` of the buffer pool is
not among the sources; it is the collaborator `available_buffer_count(urgent)`
returning an `int`, read here from the pool counters. -/
def iob_navail (pool : IobPool) (throttled : Bool) : Int :=
  if throttled then pool.navail_throttled else pool.navail

/-- Modelled from the spec: the function `iob_qentry_navail` of the buffer pool
is not among the sources; it is the collaborator `available_chain_slot_count()`
returning an `int`, read here from the pool counters. -/
def iob_qentry_navail (pool : IobPool) : Int := pool.qentry_navail

/-- The function `tcp_maxrcvwin`: `maxiob` is the `int` product
`(CONFIG_IOB_NBUFFERS - CONFIG_IOB_THROTTLE) * CONFIG_IOB_BUFSIZE` converted to
`size_t`; the result is `UINT16_MAX` when `maxiob >= UINT16_MAX`, else `maxiob`
stored in a `uint16_t`.  The difference of the two non-negative `int` constants
is itself an `int`; the product is where the `int` range can be left. -/
def tcp_maxrcvwin (cfg : IobConfig) : Nat :=
  let maxiob : Nat :=
    toUInt32 (toInt32 (((cfg.CONFIG_IOB_NBUFFERS : Int) - cfg.CONFIG_IOB_THROTTLE)
      * cfg.CONFIG_IOB_BUFSIZE))
  if maxiob ≥ UINT16_MAX then UINT16_MAX else toUInt16 maxiob

/-- The function `tcp_get_recvwindow`.  The argument `mss` is the value of
`tcp_rx_mss(dev)`, a `uint16_t`; `qempty` is the value of
`IOB_QEMPTY(&conn->readahead)`.

* `nqentry_avail > 0 && niob_avail > 0`: `rwnd` is the `int` product
  `niob_avail * CONFIG_IOB_BUFSIZE` stored in a `uint32_t`, cut at
  `UINT16_MAX`, then stored in the `uint16_t` result.
* otherwise, under `#if CONFIG_IOB_THROTTLE > 0`, when the read-ahead queue is
  empty: the result is `tcp_rx_mss(dev)`, replaced by the `int` product
  `niob_avail_no_throttle * CONFIG_IOB_BUFSIZE` (stored in the `uint16_t`) when
  it is greater than that product, the comparison being made in `int`.
* otherwise `0`. -/
def tcp_get_recvwindow (cfg : IobConfig) (pool : IobPool) (mss : Nat) (qempty : Bool) : Nat :=
  let niob_avail := iob_navail pool true
  let nqentry_avail := iob_qentry_navail pool
  if nqentry_avail > 0 ∧ niob_avail > 0 then
    let rwnd : Nat := toUInt32 (toInt32 (niob_avail * cfg.CONFIG_IOB_BUFSIZE))
    toUInt16 (if rwnd > UINT16_MAX then UINT16_MAX else rwnd)
  else if cfg.CONFIG_IOB_THROTTLE > 0 ∧ qempty = true then
    let niob_avail_no_throttle := iob_navail pool false
    let recvwndo : Nat := toUInt16 mss
    if (recvwndo : Int) > toInt32 (niob_avail_no_throttle * cfg.CONFIG_IOB_BUFSIZE) then
      toUInt16 (toInt32 (niob_avail_no_throttle * cfg.CONFIG_IOB_BUFSIZE))
    else recvwndo
  else 0

/-- Modelled from the spec: the macro `TCP_SEQ_LT` of tcp/tcp.h is not among
the sources; it is the wraparound-safe order of the 32-bit sequence space:
`a` is before `b` when the difference `a - b`, computed in `uint32_t` and read
as a signed 32-bit value, is negative. -/
def TCP_SEQ_LT (a b : Nat) : Bool := decide (toInt32 (toUInt32 ((a : Int) - b)) < 0)

/-- Modelled from the spec: the macro `TCP_SEQ_GT` of tcp/tcp.h is not among
the sources; it is the spec's wraparound-safe `greater_than(a, b)`, the order
`TCP_SEQ_LT` with the arguments exchanged. -/
def TCP_SEQ_GT (a b : Nat) : Bool := TCP_SEQ_LT b a

/-- Modelled from the spec: the macro `TCP_SEQ_SUB` of tcp/tcp.h is not among
the sources; it is the spec's `subtract(a, b)` over the 32-bit sequence space,
the difference modulo `2^32`. -/
def TCP_SEQ_SUB (a b : Nat) : Nat := toUInt32 ((a : Int) - b)

/-- The first block of `tcp_should_send_recvwindow`: the window still open at
the peer, `oldwin`, a `uint16_t`.  The argument `rcvseq` is the value of
`tcp_getsequence(conn->rcvseq)`, `rcv_adv` the field `conn->rcv_adv`, both
`uint32_t`. -/
def oldwin (rcv_adv rcvseq : Nat) : Nat :=
  if TCP_SEQ_GT rcv_adv rcvseq then toUInt16 (TCP_SEQ_SUB rcv_adv rcvseq) else 0

/-- The function `tcp_should_send_recvwindow`: `false` when the new window
`win` does not exceed `oldwin`; otherwise, with `adv = win - oldwin` stored in
a `uint16_t`, `true` when `2 * adv >= maxwin` or `adv >= 2 * mss`, both
comparisons made in `int` (the operands are below `2^17`). -/
def tcp_should_send_recvwindow (cfg : IobConfig) (pool : IobPool) (mss : Nat)
    (qempty : Bool) (rcv_adv rcvseq : Nat) : Bool :=
  let old := oldwin rcv_adv rcvseq
  let win := tcp_get_recvwindow cfg pool mss qempty
  if win ≤ old then false
  else
    let adv : Nat := toUInt16 ((win : Int) - old)
    let maxwin := tcp_maxrcvwin cfg
    if 2 * (adv : Int) ≥ maxwin then true
    else if (adv : Int) ≥ 2 * (toUInt16 mss : Int) then true
    else false

end TcpRecvWindow

namespace TcpListen

/-! ## Lemmas on the scans -/

theorem findlistener_null_iff (lport : Ptr → Nat) (tbl : Table) (portno : Nat) :
    tcp_findlistener lport tbl portno = NULL ↔
      ∀ c ∈ tbl, c ≠ NULL → lport c ≠ portno := by
  induction tbl with
  | nil => simp [tcp_findlistener]
  | cons s rest ih =>
    unfold tcp_findlistener
    by_cases h : s ≠ NULL ∧ lport s = portno
    · rw [if_pos h]
      constructor
      · intro h0
        exact absurd h0 h.1
      · intro hall
        exact absurd h.2 (hall s (List.mem_cons_self _ _) h.1)
    · rw [if_neg h, ih]
      constructor
      · intro hall c hc hcn
        rcases List.mem_cons.mp hc with rfl | hc
        · exact fun hp => h ⟨hcn, hp⟩
        · exact hall c hc hcn
      · intro hall c hc
        exact hall c (List.mem_cons_of_mem _ hc)

theorem findlistener_first (lport : Ptr → Nat) (tbl : Table) (portno : Nat)
    (hne : tcp_findlistener lport tbl portno ≠ NULL) :
    ∃ i : Nat, tbl[i]? = some (tcp_findlistener lport tbl portno) ∧
      lport (tcp_findlistener lport tbl portno) = portno ∧
      ∀ (j : Nat) (d : Ptr), j < i → tbl[j]? = some d → d = NULL ∨ lport d ≠ portno := by
  induction tbl with
  | nil => exact absurd rfl hne
  | cons s rest ih =>
    unfold tcp_findlistener at hne ⊢
    by_cases h : s ≠ NULL ∧ lport s = portno
    · rw [if_pos h]
      exact ⟨0, by simp, h.2, fun j d hj => absurd hj (Nat.not_lt_zero j)⟩
    · rw [if_neg h] at hne ⊢
      obtain ⟨i, hi, hp, hlow⟩ := ih hne
      refine ⟨i + 1, by simpa using hi, hp, ?_⟩
      intro j d hj hd
      cases j with
      | zero =>
        simp only [List.getElem?_cons_zero, Option.some.injEq] at hd
        subst hd
        by_cases hs : s = NULL
        · exact Or.inl hs
        · exact Or.inr (fun hp2 => h ⟨hs, hp2⟩)
      | succ j =>
        rw [List.getElem?_cons_succ] at hd
        exact hlow j d (Nat.lt_of_succ_lt_succ hj) hd

theorem findlistener_mem (lport : Ptr → Nat) (tbl : Table) (portno : Nat)
    (hne : tcp_findlistener lport tbl portno ≠ NULL) :
    tcp_findlistener lport tbl portno ∈ tbl ∧
      lport (tcp_findlistener lport tbl portno) = portno := by
  obtain ⟨i, hi, hp, _⟩ := findlistener_first lport tbl portno hne
  exact ⟨List.mem_iff_getElem?.mpr ⟨i, hi⟩, hp⟩

theorem islistener_false_iff (lport : Ptr → Nat) (tbl : Table) (portno : Nat) :
    tcp_islistener lport tbl portno = false ↔
      ∀ c ∈ tbl, c ≠ NULL → lport c ≠ portno := by
  rw [← findlistener_null_iff]
  simp [tcp_islistener]

theorem islistener_true_iff (lport : Ptr → Nat) (tbl : Table) (portno : Nat) :
    tcp_islistener lport tbl portno = true ↔
      ∃ c ∈ tbl, c ≠ NULL ∧ lport c = portno := by
  constructor
  · intro h
    by_contra hno
    have hf := (islistener_false_iff lport tbl portno).mpr
      (fun c hc hcn hp => hno ⟨c, hc, hcn, hp⟩)
    rw [h] at hf
    exact Bool.noConfusion hf
  · rintro ⟨c, hc, hcn, hp⟩
    by_contra hno
    have hf : tcp_islistener lport tbl portno = false := by simpa using hno
    exact (islistener_false_iff lport tbl portno).mp hf c hc hcn hp

/-- The slot search either fills the lowest-indexed empty slot or finds none
and changes nothing. -/
theorem listen_scan_spec (conn : Ptr) (tbl : Table) :
    (∃ i : Nat, tbl[i]? = some NULL ∧ (∀ j : Nat, j < i → tbl[j]? ≠ some NULL) ∧
        tcp_listen_scan conn tbl = (OK, tbl.set i conn)) ∨
    ((∀ c ∈ tbl, c ≠ NULL) ∧ tcp_listen_scan conn tbl = (-ENOBUFS, tbl)) := by
  induction tbl with
  | nil => exact Or.inr ⟨by simp, rfl⟩
  | cons s rest ih =>
    unfold tcp_listen_scan
    by_cases h : s = NULL
    · rw [if_pos h]
      exact Or.inl ⟨0, by simp [h], fun j hj => absurd hj (Nat.not_lt_zero j), by simp⟩
    · rw [if_neg h]
      rcases ih with ⟨i, hi, hlow, heq⟩ | ⟨hall, heq⟩
      · refine Or.inl ⟨i + 1, by simpa using hi, ?_, by rw [heq]; simp⟩
        intro j hj
        cases j with
        | zero => simpa using h
        | succ j =>
          rw [List.getElem?_cons_succ]
          exact hlow j (Nat.lt_of_succ_lt_succ hj)
      · refine Or.inr ⟨?_, by rw [heq]⟩
        intro c hc
        rcases List.mem_cons.mp hc with rfl | hc
        · exact h
        · exact hall c hc

/-- The scan of `tcp_unlisten` either clears the lowest-indexed slot holding
`conn` or finds none and changes nothing. -/
theorem unlisten_spec (tbl : Table) (conn : Ptr) :
    (∃ i : Nat, tbl[i]? = some conn ∧ (∀ j : Nat, j < i → tbl[j]? ≠ some conn) ∧
        tcp_unlisten tbl conn = (OK, tbl.set i NULL)) ∨
    (conn ∉ tbl ∧ tcp_unlisten tbl conn = (-EINVAL, tbl)) := by
  induction tbl with
  | nil => exact Or.inr ⟨by simp, rfl⟩
  | cons s rest ih =>
    unfold tcp_unlisten
    by_cases h : s = conn
    · rw [if_pos h]
      exact Or.inl ⟨0, by simp [h], fun j hj => absurd hj (Nat.not_lt_zero j), by simp⟩
    · rw [if_neg h]
      rcases ih with ⟨i, hi, hlow, heq⟩ | ⟨hall, heq⟩
      · refine Or.inl ⟨i + 1, by simpa using hi, ?_, by rw [heq]; simp⟩
        intro j hj
        cases j with
        | zero => simpa using h
        | succ j =>
          rw [List.getElem?_cons_succ]
          exact hlow j (Nat.lt_of_succ_lt_succ hj)
      · refine Or.inr ⟨?_, by rw [heq]⟩
        intro hc
        rcases List.mem_cons.mp hc with rfl | hc
        · exact h rfl
        · exact hall hc

theorem getElem?_set_cases {l : Table} {i j : Nat} {a x : Ptr}
    (h : (l.set i a)[j]? = some x) :
    (j = i ∧ x = a) ∨ (j ≠ i ∧ l[j]? = some x) := by
  by_cases hji : j = i
  · subst hji
    rw [List.getElem?_set] at h
    simp only [if_true] at h
    by_cases hlt : j < l.length
    · rw [if_pos hlt] at h
      exact Or.inl ⟨rfl, (Option.some.inj h).symm⟩
    · rw [if_neg hlt] at h
      exact Option.noConfusion h
  · rw [List.getElem?_set_ne (Ne.symm hji)] at h
    exact Or.inr ⟨hji, h⟩

theorem mem_set_of_ne {l : Table} {i : Nat} {a v x : Ptr}
    (hx : x ∈ l) (hi : l[i]? = some a) (hne : x ≠ a) : x ∈ l.set i v := by
  obtain ⟨k, hk⟩ := List.mem_iff_getElem?.mp hx
  have hki : i ≠ k := by
    intro hik
    subst hik
    rw [hi] at hk
    exact hne (Option.some.inj hk).symm
  exact List.mem_iff_getElem?.mpr ⟨k, by rw [List.getElem?_set_ne hki]; exact hk⟩

theorem mem_set_self {l : Table} {i : Nat} {a v : Ptr} (hi : l[i]? = some a) :
    v ∈ l.set i v := by
  have hlt : i < l.length := (List.getElem?_eq_some.mp hi).1
  exact List.mem_iff_getElem?.mpr ⟨i, List.getElem?_set_self hlt⟩

theorem count_null_set {conn : Ptr} (hconn : conn ≠ NULL) :
    ∀ (l : Table) (i : Nat), l[i]? = some NULL →
      List.count NULL (l.set i conn) + 1 = List.count NULL l := by
  intro l
  induction l with
  | nil => intro i hi; simp at hi
  | cons s rest ih =>
    intro i hi
    cases i with
    | zero =>
      simp only [List.getElem?_cons_zero, Option.some.injEq] at hi
      subst hi
      have h1 : (conn == NULL) = false := by simpa using hconn
      simp [List.count_cons, h1]
    | succ i =>
      rw [List.getElem?_cons_succ] at hi
      have := ih i hi
      simp only [List.set_cons_succ, List.count_cons]
      omega

/-- The three outcomes of `tcp_listen`. -/
theorem listen_cases (lport : Ptr → Nat) (tbl : Table) (conn : Ptr) :
    ((∃ c ∈ tbl, c ≠ NULL ∧ lport c = lport conn) ∧
      tcp_listen lport tbl conn = (-EADDRINUSE, tbl)) ∨
    ((∀ c ∈ tbl, c ≠ NULL → lport c ≠ lport conn) ∧ NULL ∉ tbl ∧
      tcp_listen lport tbl conn = (-ENOBUFS, tbl)) ∨
    ∃ i : Nat, tbl[i]? = some NULL ∧
      (∀ c ∈ tbl, c ≠ NULL → lport c ≠ lport conn) ∧
      tcp_listen lport tbl conn = (OK, tbl.set i conn) := by
  unfold tcp_listen
  cases hb : tcp_islistener lport tbl (lport conn) with
  | true => exact Or.inl ⟨(islistener_true_iff lport tbl (lport conn)).mp hb, by simp⟩
  | false =>
    have hport := (islistener_false_iff lport tbl (lport conn)).mp hb
    rcases listen_scan_spec conn tbl with ⟨i, hi, _, heq⟩ | ⟨hall, heq⟩
    · exact Or.inr (Or.inr ⟨i, hi, hport, by simpa using heq⟩)
    · exact Or.inr (Or.inl ⟨hport, fun hm => hall NULL hm rfl, by simpa using heq⟩)

theorem listen_ok_cases (lport : Ptr → Nat) (tbl : Table) (conn : Ptr)
    (hok : (tcp_listen lport tbl conn).1 = OK) :
    ∃ i : Nat, tbl[i]? = some NULL ∧
      (∀ c ∈ tbl, c ≠ NULL → lport c ≠ lport conn) ∧
      tcp_listen lport tbl conn = (OK, tbl.set i conn) := by
  rcases listen_cases lport tbl conn with ⟨_, h⟩ | ⟨_, _, h⟩ | h
  · rw [h] at hok
    exact absurd hok (show (-EADDRINUSE : Int) ≠ OK by decide)
  · rw [h] at hok
    exact absurd hok (show (-ENOBUFS : Int) ≠ OK by decide)
  · exact h

theorem onePerPort_iff (lport : Ptr → Nat) (tbl : Table) :
    OnePerPort lport tbl ↔
      ∀ (i j : Nat) (c d : Ptr), tbl[i]? = some c → tbl[j]? = some d →
        c ≠ NULL → d ≠ NULL → lport c = lport d → i = j := by
  constructor
  · intro h i j c d hc hd hcn hdn hp
    have hi : i < tbl.length := (List.getElem?_eq_some.mp hc).1
    have hj : j < tbl.length := (List.getElem?_eq_some.mp hd).1
    have e1 : tbl.getD i NULL = c := by simp [hc]
    have e2 : tbl.getD j NULL = d := by simp [hd]
    exact h i hi j hj (by rw [e1]; exact hcn) (by rw [e2]; exact hdn) (by rw [e1, e2]; exact hp)
  · intro h i hi j hj hcn hdn hp
    have e1 : tbl[i]? = some (tbl.getD i NULL) := by simp [List.getElem?_eq_getElem hi]
    have e2 : tbl[j]? = some (tbl.getD j NULL) := by simp [List.getElem?_eq_getElem hj]
    exact h i j _ _ e1 e2 hcn hdn hp

theorem onePerPort_set_null (lport : Ptr → Nat) (tbl : Table) (i : Nat)
    (h : OnePerPort lport tbl) : OnePerPort lport (tbl.set i NULL) := by
  rw [onePerPort_iff] at h ⊢
  intro a b c d hc hd hcn hdn hp
  rcases getElem?_set_cases hc with ⟨_, hc0⟩ | ⟨_, hc1⟩
  · exact absurd hc0 hcn
  · rcases getElem?_set_cases hd with ⟨_, hd0⟩ | ⟨_, hd1⟩
    · exact absurd hd0 hdn
    · exact h a b c d hc1 hd1 hcn hdn hp

theorem onePerPort_set_new (lport : Ptr → Nat) (tbl : Table) (i : Nat) (conn : Ptr)
    (h : OnePerPort lport tbl)
    (hport : ∀ c ∈ tbl, c ≠ NULL → lport c ≠ lport conn) :
    OnePerPort lport (tbl.set i conn) := by
  rw [onePerPort_iff] at h ⊢
  intro a b c d hc hd hcn hdn hp
  rcases getElem?_set_cases hc with ⟨ha, hc0⟩ | ⟨_, hc1⟩
  · rcases getElem?_set_cases hd with ⟨hb, _⟩ | ⟨_, hd1⟩
    · rw [ha, hb]
    · subst hc0
      exact absurd hp.symm (hport d (List.mem_iff_getElem?.mpr ⟨b, hd1⟩) hdn)
  · rcases getElem?_set_cases hd with ⟨_, hd0⟩ | ⟨_, hd1⟩
    · subst hd0
      exact absurd hp (hport c (List.mem_iff_getElem?.mpr ⟨a, hc1⟩) hcn)
    · exact h a b c d hc1 hd1 hcn hdn hp

theorem onePerPort_apply (lport : Ptr → Nat) (tbl : Table) (call : Call)
    (h : OnePerPort lport tbl) : OnePerPort lport (call.apply lport tbl) := by
  cases call with
  | listen conn =>
    show OnePerPort lport (tcp_listen lport tbl conn).2
    rcases listen_cases lport tbl conn with ⟨_, he⟩ | ⟨_, _, he⟩ | ⟨i, _, hport, he⟩
    · rw [he]; exact h
    · rw [he]; exact h
    · rw [he]; exact onePerPort_set_new lport tbl i conn h hport
  | unlisten conn =>
    show OnePerPort lport (tcp_unlisten tbl conn).2
    rcases unlisten_spec tbl conn with ⟨i, _, _, he⟩ | ⟨_, he⟩
    · rw [he]; exact onePerPort_set_null lport tbl i h
    · rw [he]; exact h

theorem onePerPort_runCalls (lport : Ptr → Nat) (calls : List Call) :
    ∀ tbl : Table, OnePerPort lport tbl → OnePerPort lport (runCalls lport tbl calls) := by
  induction calls with
  | nil => intro tbl h; exact h
  | cons call rest ih =>
    intro tbl h
    exact ih (call.apply lport tbl) (onePerPort_apply lport tbl call h)

theorem onePerPort_init (lport : Ptr → Nat) (n : Nat) :
    OnePerPort lport (tcp_listeninit n) := by
  rw [onePerPort_iff]
  intro a b c d hc _ hcn _ _
  have hmem : c ∈ List.replicate n NULL := List.mem_iff_getElem?.mpr ⟨a, hc⟩
  exact absurd (List.eq_of_mem_replicate hmem) hcn

theorem registered_after_listen (lport : Ptr → Nat) (tbl : Table) (conn : Ptr)
    (hok : (tcp_listen lport tbl conn).1 = OK) :
    Registered lport conn (tcp_listen lport tbl conn).2 := by
  obtain ⟨i, hi, hport, he⟩ := listen_ok_cases lport tbl conn hok
  rw [he]
  refine ⟨mem_set_self hi, ?_⟩
  intro c hc hcn hp
  rcases List.mem_or_eq_of_mem_set hc with hc | hc
  · exact absurd hp (hport c hc hcn)
  · exact hc

theorem registered_apply (lport : Ptr → Nat) (tbl : Table) (conn : Ptr) (call : Call)
    (hconn : conn ≠ NULL) (hcall : call ≠ Call.unlisten conn)
    (h : Registered lport conn tbl) : Registered lport conn (call.apply lport tbl) := by
  cases call with
  | listen c2 =>
    show Registered lport conn (tcp_listen lport tbl c2).2
    rcases listen_cases lport tbl c2 with ⟨_, he⟩ | ⟨_, _, he⟩ | ⟨i, hi, hport, he⟩
    · rw [he]; exact h
    · rw [he]; exact h
    · rw [he]
      refine ⟨mem_set_of_ne h.1 hi hconn, ?_⟩
      intro c hc hcn hp
      rcases List.mem_or_eq_of_mem_set hc with hc | hc
      · exact h.2 c hc hcn hp
      · subst hc
        exact absurd hp.symm (hport conn h.1 hconn)
  | unlisten c2 =>
    show Registered lport conn (tcp_unlisten tbl c2).2
    have hne : conn ≠ c2 := fun e => hcall (by rw [e])
    rcases unlisten_spec tbl c2 with ⟨i, hi, _, he⟩ | ⟨_, he⟩
    · rw [he]
      refine ⟨mem_set_of_ne h.1 hi hne, ?_⟩
      intro c hc hcn hp
      rcases List.mem_or_eq_of_mem_set hc with hc | hc
      · exact h.2 c hc hcn hp
      · exact absurd hc hcn
    · rw [he]; exact h

theorem registered_runCalls (lport : Ptr → Nat) (conn : Ptr) (hconn : conn ≠ NULL)
    (calls : List Call) :
    ∀ tbl : Table, Call.unlisten conn ∉ calls → Registered lport conn tbl →
      Registered lport conn (runCalls lport tbl calls) := by
  induction calls with
  | nil => intro tbl _ h; exact h
  | cons call rest ih =>
    intro tbl hnot h
    have h1 : call ≠ Call.unlisten conn := fun e => hnot (by rw [e]; exact List.mem_cons_self _ _)
    have h2 : Call.unlisten conn ∉ rest := fun hm => hnot (List.mem_cons_of_mem _ hm)
    exact ih (call.apply lport tbl) h2 (registered_apply lport tbl conn call hconn h1 h)

theorem registered_find (lport : Ptr → Nat) (tbl : Table) (conn : Ptr)
    (hconn : conn ≠ NULL) (h : Registered lport conn tbl) :
    tcp_findlistener lport tbl (lport conn) = conn := by
  have hne : tcp_findlistener lport tbl (lport conn) ≠ NULL := by
    intro h0
    exact (findlistener_null_iff lport tbl (lport conn)).mp h0 conn h.1 hconn rfl
  obtain ⟨hm, hp⟩ := findlistener_mem lport tbl (lport conn) hne
  exact h.2 _ hm hne hp

theorem runCalls_cons (lport : Ptr → Nat) (tbl : Table) (call : Call) (rest : List Call) :
    runCalls lport tbl (call :: rest) = runCalls lport (call.apply lport tbl) rest := rfl

/-- After a run of successful `tcp_listen` calls on non-null connections the
number of empty slots has dropped by the number of calls, and every entry of
the table is an old entry or one of the connections. -/
theorem listenAll_spec (lport : Ptr → Nat) (cs : List Ptr) :
    ∀ tbl : Table, (∀ c ∈ cs, c ≠ NULL) → listenAllOK lport tbl cs = true →
      List.count NULL (runCalls lport tbl (cs.map Call.listen)) + cs.length
          = List.count NULL tbl ∧
        ∀ x ∈ runCalls lport tbl (cs.map Call.listen), x ∈ tbl ∨ x ∈ cs := by
  induction cs with
  | nil =>
    intro tbl _ _
    exact ⟨rfl, fun x hx => Or.inl hx⟩
  | cons c cs ih =>
    intro tbl hnn hok
    unfold listenAllOK at hok
    rw [Bool.and_eq_true, decide_eq_true_eq] at hok
    obtain ⟨i, hi, _, he⟩ := listen_ok_cases lport tbl c hok.1
    have hc : c ≠ NULL := hnn c (List.mem_cons_self _ _)
    obtain ⟨hcount, hmem⟩ := ih (tcp_listen lport tbl c).2
      (fun x hx => hnn x (List.mem_cons_of_mem _ hx)) hok.2
    have hrun : runCalls lport tbl ((c :: cs).map Call.listen)
        = runCalls lport (tcp_listen lport tbl c).2 (cs.map Call.listen) := rfl
    have he2 : (tcp_listen lport tbl c).2 = tbl.set i c := by rw [he]
    rw [hrun]
    rw [he2] at hcount hmem ⊢
    constructor
    · have h1 := count_null_set hc tbl i hi
      simp only [List.length_cons]
      omega
    · intro x hx
      rcases hmem x hx with h1 | h1
      · rcases List.mem_or_eq_of_mem_set h1 with h2 | h2
        · exact Or.inl h2
        · exact Or.inr (by rw [h2]; exact List.mem_cons_self _ _)
      · exact Or.inr (List.mem_cons_of_mem _ h1)

/-! ## The registry operations -/

/-- C1: if `tcp_listen(conn)` returns `OK` for a connection `conn` (a non-null
reference) with local port `p = conn->lport`, then right afterwards, and after
every further sequence of `tcp_listen` and `tcp_unlisten` calls none of which is
`tcp_unlisten(conn)`, `tcp_findlistener(p)` returns `conn`.  The memory `lport`
is the same throughout: the ports of the connections do not change. -/
theorem C1_listen_then_find (lport : Ptr → Nat) (tbl : Table) (conn : Ptr)
    (calls : List Call) (hconn : conn ≠ NULL)
    (hok : (tcp_listen lport tbl conn).1 = OK)
    (hcalls : Call.unlisten conn ∉ calls) :
    tcp_findlistener lport (runCalls lport (tcp_listen lport tbl conn).2 calls)
      (lport conn) = conn :=
  registered_find lport _ conn hconn
    (registered_runCalls lport conn hconn calls _ hcalls
      (registered_after_listen lport tbl conn hok))

/-- C1 evaluated: `tcp_listen(6)` on `[5, 0, 0]`, then `tcp_listen(8)` (same
port as `6`, refused), `tcp_unlisten(5)`, `tcp_listen(7)`, `tcp_unlisten(9)`. -/
theorem C1_listen_then_find_witness :
    (6 : Ptr) ≠ NULL ∧ (tcp_listen demoPort [5, 0, 0] 6).1 = OK ∧
    tcp_findlistener demoPort
      (runCalls demoPort (tcp_listen demoPort [5, 0, 0] 6).2
        [Call.listen 8, Call.unlisten 5, Call.listen 7, Call.unlisten 9])
      (demoPort 6) = 6 :=
  ⟨by decide, by decide,
    C1_listen_then_find demoPort [5, 0, 0] 6
      [Call.listen 8, Call.unlisten 5, Call.listen 7, Call.unlisten 9]
      (by decide) (by decide) (by decide)⟩

/-- C2: when some occupied slot holds a connection whose local port equals
`conn->lport`, `tcp_listen(conn)` returns `-EADDRINUSE` and the table is left
as it was.  Nothing is assumed on free slots: the table may be full or not. -/
theorem C2_listen_port_in_use (lport : Ptr → Nat) (tbl : Table) (conn : Ptr)
    (h : ∃ c ∈ tbl, c ≠ NULL ∧ lport c = lport conn) :
    tcp_listen lport tbl conn = (-EADDRINUSE, tbl) := by
  unfold tcp_listen
  rw [if_pos ((islistener_true_iff lport tbl (lport conn)).mpr h)]

/-- C2 evaluated on a full table: slots `[5, 6, 7]`, the new connection `8`
has the port of the connection `6`. -/
theorem C2_listen_port_in_use_witness :
    (∃ c ∈ [5, 6, 7], c ≠ NULL ∧ demoPort c = demoPort 8) ∧
      tcp_listen demoPort [5, 6, 7] 8 = (-EADDRINUSE, [5, 6, 7]) :=
  ⟨by decide, C2_listen_port_in_use demoPort [5, 6, 7] 8 (by decide)⟩

/-- C3: when no occupied slot has local port `conn->lport` and some slot is
empty, `tcp_listen(conn)` returns `OK`; with `i` the lowest index of an empty
slot, the table left behind holds `conn` in slot `i` and is unchanged in every
other slot. -/
theorem C3_listen_first_empty_slot (lport : Ptr → Nat) (tbl : Table) (conn : Ptr)
    (hport : ∀ c ∈ tbl, c ≠ NULL → lport c ≠ lport conn) (hempty : NULL ∈ tbl) :
    ∃ i : Nat, tbl[i]? = some NULL ∧ (∀ j : Nat, j < i → tbl[j]? ≠ some NULL) ∧
      (tcp_listen lport tbl conn).1 = OK ∧
      (tcp_listen lport tbl conn).2 = tbl.set i conn ∧
      (tcp_listen lport tbl conn).2[i]? = some conn ∧
      ∀ j : Nat, j ≠ i → (tcp_listen lport tbl conn).2[j]? = tbl[j]? := by
  have hfalse := (islistener_false_iff lport tbl (lport conn)).mpr hport
  have hun : tcp_listen lport tbl conn = tcp_listen_scan conn tbl := by
    unfold tcp_listen
    rw [hfalse]
    simp
  rcases listen_scan_spec conn tbl with ⟨i, hi, hlow, heq⟩ | ⟨hall, _⟩
  · refine ⟨i, hi, hlow, ?_, ?_, ?_, ?_⟩
    · rw [hun, heq]
    · rw [hun, heq]
    · rw [hun, heq]
      have hlt : i < tbl.length := (List.getElem?_eq_some.mp hi).1
      simp [List.getElem?_set_self hlt]
    · intro j hj
      rw [hun, heq]
      simp [List.getElem?_set_ne (Ne.symm hj)]
  · exact absurd rfl (hall NULL hempty)

/-- C3 evaluated: slots `[5, 0, 0]`, the new connection `8` has a port that
the connection `5` does not have; slot `1` receives it. -/
theorem C3_listen_first_empty_slot_witness :
    ∃ i : Nat, [5, 0, 0][i]? = some NULL ∧
      (∀ j : Nat, j < i → [5, 0, 0][j]? ≠ some NULL) ∧
      (tcp_listen demoPort [5, 0, 0] 8).1 = OK ∧
      (tcp_listen demoPort [5, 0, 0] 8).2 = [5, 0, 0].set i 8 ∧
      (tcp_listen demoPort [5, 0, 0] 8).2[i]? = some 8 ∧
      ∀ j : Nat, j ≠ i → (tcp_listen demoPort [5, 0, 0] 8).2[j]? = [5, 0, 0][j]? :=
  C3_listen_first_empty_slot demoPort [5, 0, 0] 8 (by decide) (by decide)

/-- C4: when no occupied slot has local port `conn->lport` and no slot is
empty, `tcp_listen(conn)` returns `-ENOBUFS` and the table is left as it
was. -/
theorem C4_listen_no_free_slot (lport : Ptr → Nat) (tbl : Table) (conn : Ptr)
    (hport : ∀ c ∈ tbl, c ≠ NULL → lport c ≠ lport conn) (hfull : NULL ∉ tbl) :
    tcp_listen lport tbl conn = (-ENOBUFS, tbl) := by
  have hfalse := (islistener_false_iff lport tbl (lport conn)).mpr hport
  unfold tcp_listen
  rw [hfalse]
  rcases listen_scan_spec conn tbl with ⟨i, hi, _, _⟩ | ⟨_, heq⟩
  · exact absurd (List.mem_iff_getElem?.mpr ⟨i, hi⟩) hfull
  · simpa using heq

/-- C4 evaluated: the full table `[5, 7, 9]` holds odd addresses only, the new
connection `8` has the other port. -/
theorem C4_listen_no_free_slot_witness :
    (∀ c ∈ [5, 7, 9], c ≠ NULL → demoPort c ≠ demoPort 8) ∧ NULL ∉ [5, 7, 9] ∧
      tcp_listen demoPort [5, 7, 9] 8 = (-ENOBUFS, [5, 7, 9]) :=
  ⟨by decide, by decide, C4_listen_no_free_slot demoPort [5, 7, 9] 8 (by decide) (by decide)⟩

/-- C5: with `N` the number of slots of the table (the capacity
`CONFIG_NET_MAX_LISTENPORTS`), from any starting table: given `N` connections
`conns` (non-null references) and one more, `last`, the `N + 1` local ports
pairwise distinct, if the `N` calls `tcp_listen(c)` made in order all return
`OK`, then `tcp_listen(last)` returns `-ENOBUFS` and changes nothing. -/
theorem C5_capacity_exhausted (lport : Ptr → Nat) (tbl : Table) (conns : List Ptr)
    (last : Ptr) (hlen : conns.length = tbl.length)
    (hnn : ∀ c ∈ conns, c ≠ NULL)
    (hports : ((conns ++ [last]).map lport).Nodup)
    (hok : listenAllOK lport tbl conns = true) :
    tcp_listen lport (runCalls lport tbl (conns.map Call.listen)) last
      = (-ENOBUFS, runCalls lport tbl (conns.map Call.listen)) := by
  obtain ⟨hcount, hmem⟩ := listenAll_spec lport conns tbl hnn hok
  have hle := List.count_le_length NULL tbl
  have hfull : List.count NULL tbl = tbl.length := by omega
  have hzero : List.count NULL (runCalls lport tbl (conns.map Call.listen)) = 0 := by omega
  have hnone : NULL ∉ runCalls lport tbl (conns.map Call.listen) :=
    List.count_eq_zero.mp hzero
  have hallnull : ∀ b ∈ tbl, NULL = b := List.count_eq_length.mp hfull
  have hdisj : ∀ c ∈ conns, lport c ≠ lport last := by
    intro c hc hp
    rw [List.map_append, List.nodup_append] at hports
    exact hports.2.2 (List.mem_map_of_mem lport hc) (by simp [hp])
  rcases listen_cases lport (runCalls lport tbl (conns.map Call.listen)) last with
    ⟨⟨c, hc, hcn, hp⟩, _⟩ | ⟨_, _, he⟩ | ⟨i, hi, _, _⟩
  · rcases hmem c hc with h1 | h1
    · exact absurd (hallnull c h1).symm hcn
    · exact absurd hp (hdisj c h1)
  · exact he
  · exact absurd (List.mem_iff_getElem?.mpr ⟨i, hi⟩) hnone

/-- C5 evaluated with `N = 3`: on the empty table, `tcp_listen` of `5`, `6`,
`7` (ports `1005`, `1006`, `1007`) succeeds three times, then `tcp_listen(9)`
is refused with `-ENOBUFS`. -/
theorem C5_capacity_exhausted_witness :
    listenAllOK (fun c => 1000 + c) (tcp_listeninit 3) [5, 6, 7] = true ∧
    ((([5, 6, 7] : List Ptr) ++ [9]).map (fun c => 1000 + c)).Nodup ∧
    tcp_listen (fun c => 1000 + c)
        (runCalls (fun c => 1000 + c) (tcp_listeninit 3) ([5, 6, 7].map Call.listen)) 9
      = (-ENOBUFS,
          runCalls (fun c => 1000 + c) (tcp_listeninit 3) ([5, 6, 7].map Call.listen)) :=
  ⟨by decide, by decide,
    C5_capacity_exhausted (fun c => 1000 + c) (tcp_listeninit 3) [5, 6, 7] 9
      (by decide) (by decide) (by decide) (by decide)⟩

/-- C6: the table reached from `tcp_listeninit` by any sequence of
`tcp_listen` and `tcp_unlisten` calls satisfies the one-listener-per-port
invariant: two occupied slots with the same local port are one slot, and a
connection held by two slots is held by one slot. -/
theorem C6_one_listener_per_port (lport : Ptr → Nat) (n : Nat) (calls : List Call) :
    OnePerPort lport (runCalls lport (tcp_listeninit n) calls) ∧
    (∀ (i j : Nat) (c d : Ptr),
      (runCalls lport (tcp_listeninit n) calls)[i]? = some c →
      (runCalls lport (tcp_listeninit n) calls)[j]? = some d →
      c ≠ NULL → d ≠ NULL → lport c = lport d → i = j) ∧
    (∀ (i j : Nat) (c : Ptr),
      (runCalls lport (tcp_listeninit n) calls)[i]? = some c →
      (runCalls lport (tcp_listeninit n) calls)[j]? = some c →
      c ≠ NULL → i = j) := by
  have h := onePerPort_runCalls lport calls (tcp_listeninit n) (onePerPort_init lport n)
  have h2 := (onePerPort_iff lport _).mp h
  exact ⟨h, h2, fun i j c hi hj hc => h2 i j c c hi hj hc hc rfl⟩

/-- C7: `tcp_findlistener(portno)` returns the connection of the lowest-indexed
occupied slot whose local port is `portno`: (1) a slot that is occupied, has the
port and is preceded by no such slot is the one returned; (2) a non-null result
sits in such a slot; (3) the result is `NULL` exactly when no occupied slot has
the port; (4) a non-null result has local port `portno`. -/
theorem C7_findlistener_first_match (lport : Ptr → Nat) (tbl : Table) (portno : Nat) :
    (∀ (i : Nat) (c : Ptr), tbl[i]? = some c → c ≠ NULL → lport c = portno →
        (∀ (j : Nat) (d : Ptr), j < i → tbl[j]? = some d → d = NULL ∨ lport d ≠ portno) →
        tcp_findlistener lport tbl portno = c) ∧
    (tcp_findlistener lport tbl portno ≠ NULL →
        ∃ i : Nat, tbl[i]? = some (tcp_findlistener lport tbl portno) ∧
          ∀ (j : Nat) (d : Ptr), j < i → tbl[j]? = some d → d = NULL ∨ lport d ≠ portno) ∧
    (tcp_findlistener lport tbl portno = NULL ↔
        ∀ (i : Nat) (c : Ptr), tbl[i]? = some c → c = NULL ∨ lport c ≠ portno) ∧
    (tcp_findlistener lport tbl portno ≠ NULL →
        lport (tcp_findlistener lport tbl portno) = portno) := by
  have hnull : tcp_findlistener lport tbl portno = NULL ↔
      ∀ (i : Nat) (c : Ptr), tbl[i]? = some c → c = NULL ∨ lport c ≠ portno := by
    rw [findlistener_null_iff]
    constructor
    · intro h i c hi
      by_cases hc : c = NULL
      · exact Or.inl hc
      · exact Or.inr (h c (List.mem_iff_getElem?.mpr ⟨i, hi⟩) hc)
    · intro h c hc hcn
      obtain ⟨i, hi⟩ := List.mem_iff_getElem?.mp hc
      rcases h i c hi with h0 | hp
      · exact absurd h0 hcn
      · exact hp
  refine ⟨?_, ?_, hnull, ?_⟩
  · intro i c hi hcn hp hlow
    have hne : tcp_findlistener lport tbl portno ≠ NULL := by
      intro h0
      rcases hnull.mp h0 i c hi with h1 | h1
      · exact hcn h1
      · exact h1 hp
    obtain ⟨k, hk, hkp, hklow⟩ := findlistener_first lport tbl portno hne
    rcases Nat.lt_trichotomy k i with hlt | heq | hgt
    · rcases hlow k _ hlt hk with h1 | h1
      · exact absurd h1 hne
      · exact absurd hkp h1
    · subst heq
      rw [hi] at hk
      exact (Option.some.inj hk).symm
    · rcases hklow i c hgt hi with h1 | h1
      · exact absurd h1 hcn
      · exact absurd hp h1
  · intro hne
    obtain ⟨k, hk, _, hklow⟩ := findlistener_first lport tbl portno hne
    exact ⟨k, hk, hklow⟩
  · intro hne
    exact (findlistener_first lport tbl portno hne).choose_spec.2.1

/-- C8: when some slot references `conn`, `tcp_unlisten(conn)` returns `OK`;
with `i` the lowest index of a slot equal to `conn`, the table left behind has
`NULL` in slot `i` and is unchanged in every other slot.  The match is on the
reference: a slot holding any other connection, whatever its port, keeps
it. -/
theorem C8_unlisten_clears_by_identity (tbl : Table) (conn : Ptr) (h : conn ∈ tbl) :
    ∃ i : Nat, tbl[i]? = some conn ∧ (∀ j : Nat, j < i → tbl[j]? ≠ some conn) ∧
      (tcp_unlisten tbl conn).1 = OK ∧
      (tcp_unlisten tbl conn).2 = tbl.set i NULL ∧
      (tcp_unlisten tbl conn).2[i]? = some NULL ∧
      (∀ j : Nat, j ≠ i → (tcp_unlisten tbl conn).2[j]? = tbl[j]?) ∧
      (∀ (j : Nat) (d : Ptr), tbl[j]? = some d → d ≠ conn →
        (tcp_unlisten tbl conn).2[j]? = some d) := by
  rcases unlisten_spec tbl conn with ⟨i, hi, hlow, heq⟩ | ⟨hnot, _⟩
  · have hlt : i < tbl.length := (List.getElem?_eq_some.mp hi).1
    refine ⟨i, hi, hlow, by rw [heq], by rw [heq], ?_, ?_, ?_⟩
    · rw [heq]
      simp [List.getElem?_set_self hlt]
    · intro j hj
      rw [heq]
      simp [List.getElem?_set_ne (Ne.symm hj)]
    · intro j d hj hd
      have hji : i ≠ j := by
        intro hij
        subst hij
        rw [hi] at hj
        exact hd (Option.some.inj hj).symm
      rw [heq]
      simp [List.getElem?_set_ne hji, hj]
  · exact absurd h hnot

/-- C8 evaluated: in `[5, 6, 8]` the connections `6` and `8` have the same
port; `tcp_unlisten(8)` clears slot `2` and keeps `6`. -/
theorem C8_unlisten_clears_by_identity_witness :
    demoPort 6 = demoPort 8 ∧ tcp_unlisten [5, 6, 8] 8 = (OK, [5, 6, NULL]) ∧
    ∃ i : Nat, [5, 6, 8][i]? = some 8 ∧ (∀ j : Nat, j < i → [5, 6, 8][j]? ≠ some 8) ∧
      (tcp_unlisten [5, 6, 8] 8).1 = OK ∧
      (tcp_unlisten [5, 6, 8] 8).2 = [5, 6, 8].set i NULL ∧
      (tcp_unlisten [5, 6, 8] 8).2[i]? = some NULL ∧
      (∀ j : Nat, j ≠ i → (tcp_unlisten [5, 6, 8] 8).2[j]? = [5, 6, 8][j]?) ∧
      (∀ (j : Nat) (d : Ptr), [5, 6, 8][j]? = some d → d ≠ 8 →
        (tcp_unlisten [5, 6, 8] 8).2[j]? = some d) :=
  ⟨by decide, by decide, C8_unlisten_clears_by_identity [5, 6, 8] 8 (by decide)⟩

/-- C9: when no slot holds the reference `conn`, `tcp_unlisten(conn)` returns
`-EINVAL` (the outcome `NotFound`) and the table is left as it was. -/
theorem C9_unlisten_not_found (tbl : Table) (conn : Ptr) (h : conn ∉ tbl) :
    tcp_unlisten tbl conn = (-EINVAL, tbl) := by
  rcases unlisten_spec tbl conn with ⟨i, hi, _, _⟩ | ⟨_, heq⟩
  · exact absurd (List.mem_iff_getElem?.mpr ⟨i, hi⟩) h
  · exact heq

/-- C9 evaluated: `[5, 6, 0]` does not hold `8`, although `6` has the port of
`8`. -/
theorem C9_unlisten_not_found_witness :
    8 ∉ [5, 6, 0] ∧ demoPort 6 = demoPort 8 ∧
      tcp_unlisten [5, 6, 0] 8 = (-EINVAL, [5, 6, 0]) :=
  ⟨by decide, by decide, C9_unlisten_not_found [5, 6, 0] 8 (by decide)⟩

/-- C10: in a table satisfying the one-listener-per-port invariant, after
`tcp_unlisten(conn)` has returned `OK` for a connection `conn` (a non-null
reference), `tcp_findlistener(conn->lport)` returns `NULL`,
`tcp_islistener(conn->lport)` is false, and `tcp_listen` of any connection with
that port does not return `-EADDRINUSE`. -/
theorem C10_unlisten_frees_port (lport : Ptr → Nat) (tbl : Table) (conn : Ptr)
    (hinv : OnePerPort lport tbl) (hconn : conn ≠ NULL)
    (hok : (tcp_unlisten tbl conn).1 = OK) :
    tcp_findlistener lport (tcp_unlisten tbl conn).2 (lport conn) = NULL ∧
    tcp_islistener lport (tcp_unlisten tbl conn).2 (lport conn) = false ∧
    ∀ c2 : Ptr, lport c2 = lport conn →
      (tcp_listen lport (tcp_unlisten tbl conn).2 c2).1 ≠ -EADDRINUSE := by
  rw [onePerPort_iff] at hinv
  have hfree : ∀ c ∈ (tcp_unlisten tbl conn).2, c ≠ NULL → lport c ≠ lport conn := by
    rcases unlisten_spec tbl conn with ⟨i, hi, _, he⟩ | ⟨_, he⟩
    · rw [he]
      intro c hc hcn hp
      obtain ⟨j, hj⟩ := List.mem_iff_getElem?.mp hc
      rcases getElem?_set_cases hj with ⟨_, h0⟩ | ⟨hji, hold⟩
      · exact hcn h0
      · exact hji (hinv j i c conn hold hi hcn hconn hp)
    · rw [he] at hok
      exact absurd hok (show (-EINVAL : Int) ≠ OK by decide)
  refine ⟨(findlistener_null_iff lport _ _).mpr hfree,
    (islistener_false_iff lport _ _).mpr hfree, ?_⟩
  intro c2 hp2
  rcases listen_cases lport (tcp_unlisten tbl conn).2 c2 with
    ⟨⟨c, hc, hcn, hp⟩, _⟩ | ⟨_, _, he⟩ | ⟨i, _, _, he⟩
  · exact absurd (hp.trans hp2) (hfree c hc hcn)
  · rw [he]
    exact (show (-ENOBUFS : Int) ≠ -EADDRINUSE by decide)
  · rw [he]
    exact (show (OK : Int) ≠ -EADDRINUSE by decide)

/-- C10 evaluated: in `[5, 6, 0]`, after `tcp_unlisten(6)`, the port of `6` has
no listener and `tcp_listen(8)`, on the same port, succeeds. -/
theorem C10_unlisten_frees_port_witness :
    OnePerPort demoPort [5, 6, 0] ∧ (tcp_unlisten [5, 6, 0] 6).1 = OK ∧
    demoPort 8 = demoPort 6 ∧
    (tcp_listen demoPort (tcp_unlisten [5, 6, 0] 6).2 8).1 = OK ∧
    (tcp_findlistener demoPort (tcp_unlisten [5, 6, 0] 6).2 (demoPort 6) = NULL ∧
      tcp_islistener demoPort (tcp_unlisten [5, 6, 0] 6).2 (demoPort 6) = false ∧
      ∀ c2 : Ptr, demoPort c2 = demoPort 6 →
        (tcp_listen demoPort (tcp_unlisten [5, 6, 0] 6).2 c2).1 ≠ -EADDRINUSE) :=
  ⟨by decide, by decide, by decide, by decide,
    C10_unlisten_frees_port demoPort [5, 6, 0] 6 (by decide) (by decide) (by decide)⟩

/-! ## Further lemmas on the table -/

theorem set_restore {l : Table} {i : Nat} {a : Ptr} (v : Ptr) (hi : l[i]? = some a) :
    (l.set i v).set i a = l := by
  rw [List.set_set]
  apply List.ext_getElem?
  intro n
  by_cases hn : i = n
  · subst hn
    rw [List.getElem?_set_self (List.getElem?_eq_some.mp hi).1, hi]
  · rw [List.getElem?_set_ne hn]

/-- A successful `tcp_listen` fills the lowest-indexed empty slot. -/
theorem listen_ok_first (lport : Ptr → Nat) (tbl : Table) (conn : Ptr)
    (hok : (tcp_listen lport tbl conn).1 = OK) :
    ∃ i : Nat, tbl[i]? = some NULL ∧ (∀ j : Nat, j < i → tbl[j]? ≠ some NULL) ∧
      (∀ c ∈ tbl, c ≠ NULL → lport c ≠ lport conn) ∧
      tcp_listen lport tbl conn = (OK, tbl.set i conn) := by
  unfold tcp_listen at hok ⊢
  cases hb : tcp_islistener lport tbl (lport conn) with
  | true =>
    rw [hb] at hok
    exact absurd hok (show (-EADDRINUSE : Int) ≠ OK by decide)
  | false =>
    rw [hb] at hok
    have hport := (islistener_false_iff lport tbl (lport conn)).mp hb
    rcases listen_scan_spec conn tbl with ⟨i, hi, hlow, heq⟩ | ⟨_, heq⟩
    · exact ⟨i, hi, hlow, hport, by simpa using heq⟩
    · have h2 : (tcp_listen_scan conn tbl).1 = OK := by simpa using hok
      rw [heq] at h2
      exact absurd h2 (show (-ENOBUFS : Int) ≠ OK by decide)

/-- Replacing a slot that does not match `portno` by an entry that does not
match it either leaves `tcp_findlistener(portno)` as it was. -/
theorem findlistener_set_other (lport : Ptr → Nat) (portno : Nat) (v : Ptr)
    (hv : v = NULL ∨ lport v ≠ portno) :
    ∀ (tbl : Table) (i : Nat) (a : Ptr), tbl[i]? = some a →
      (a = NULL ∨ lport a ≠ portno) →
      tcp_findlistener lport (tbl.set i v) portno = tcp_findlistener lport tbl portno := by
  intro tbl
  induction tbl with
  | nil => intro i a hi; simp at hi
  | cons s rest ih =>
    intro i a hi ha
    cases i with
    | zero =>
      simp only [List.getElem?_cons_zero, Option.some.injEq] at hi
      subst hi
      have h1 : ¬ (v ≠ NULL ∧ lport v = portno) := by
        rintro ⟨h1, h2⟩
        rcases hv with h | h
        · exact h1 h
        · exact h h2
      have h2 : ¬ (s ≠ NULL ∧ lport s = portno) := by
        rintro ⟨h1, h2⟩
        rcases ha with h | h
        · exact h1 h
        · exact h h2
      rw [List.set_cons_zero]
      unfold tcp_findlistener
      rw [if_neg h1, if_neg h2]
    | succ i =>
      rw [List.getElem?_cons_succ] at hi
      rw [List.set_cons_succ]
      unfold tcp_findlistener
      rw [ih i a hi ha]

/-- The scan of the spec and the scan of the code find the same slot. -/
theorem find_listener_eq (lport : Ptr → Nat) (tbl : Table) (port : Nat) :
    find_listener lport tbl port =
      if tcp_findlistener lport tbl port = NULL then none
      else some (tcp_findlistener lport tbl port) := by
  induction tbl with
  | nil => simp [find_listener, tcp_findlistener]
  | cons s rest ih =>
    unfold find_listener at ih ⊢
    unfold tcp_findlistener
    by_cases h : s ≠ NULL ∧ lport s = port
    · rw [List.find?_cons_of_pos _ (by simpa using h), if_pos h, if_neg h.1]
    · rw [List.find?_cons_of_neg _ (by simpa using h), if_neg h, ih]

theorem listeninit_mem (n : Nat) (c : Ptr) (h : c ∈ tcp_listeninit n) : c = NULL :=
  List.eq_of_mem_replicate h

/-! ## Accepting a connection, and further properties of the registry -/

/-- C23: when `tcp_findlistener(portno)` finds no listener,
`tcp_accept_connection` returns `ERROR` (the outcome `Rejected`) and makes no
call: no accept handler, no `tcp_backlogadd`, no `tcp_callback`. -/
theorem C23_accept_no_listener (lport : Ptr → Nat) (env : AcceptEnv) (tbl : Table)
    (dev conn : Ptr) (portno : Nat)
    (h : tcp_findlistener lport tbl portno = NULL) :
    tcp_accept_connection lport env tbl dev conn portno = (ERROR, []) := by
  unfold tcp_accept_connection
  simp only []
  rw [if_neg (by rw [h]; exact fun hne => hne rfl)]

/-- C23 evaluated: `[5, 0, 0]` has no listener on port `80`; the handler and
the backlog that are available are not used. -/
theorem C23_accept_no_listener_witness :
    tcp_findlistener demoPort [5, 0, 0] 80 = NULL ∧
    tcp_accept_connection demoPort ⟨true, fun _ => some (fun l c => l + c), fun _ _ => 0⟩
      [5, 0, 0] 99 7 80 = (ERROR, []) :=
  ⟨by decide,
    C23_accept_no_listener demoPort ⟨true, fun _ => some (fun l c => l + c), fun _ _ => 0⟩
      [5, 0, 0] 99 7 80 (by decide)⟩

/-- C24: when the listener found for `portno` has its `accept` field set to
`handler`, `tcp_accept_connection` returns `handler(listener, conn)` and its
only call is that one call of the handler: no `tcp_backlogadd`, no
`tcp_callback`, with `CONFIG_NET_TCPBACKLOG` defined or not. -/
theorem C24_accept_handler (lport : Ptr → Nat) (env : AcceptEnv) (tbl : Table)
    (dev conn : Ptr) (portno : Nat) (handler : Ptr → Ptr → Int)
    (hl : tcp_findlistener lport tbl portno ≠ NULL)
    (hh : env.accept (tcp_findlistener lport tbl portno) = some handler) :
    tcp_accept_connection lport env tbl dev conn portno =
      (handler (tcp_findlistener lport tbl portno) conn,
        [Event.accept (tcp_findlistener lport tbl portno) conn]) := by
  unfold tcp_accept_connection
  simp only []
  rw [if_pos hl, hh]

/-- C24 evaluated with the backlog enabled: the listener `6` of port `80` has a
handler returning `listener + conn`; the result is `13` and the only call is the
handler's. -/
theorem C24_accept_handler_witness :
    tcp_findlistener demoPort [5, 6, 0] 80 = 6 ∧
    tcp_accept_connection demoPort ⟨true, fun _ => some (fun l c => l + c), fun _ _ => 0⟩
      [5, 6, 0] 99 7 80 = ((13 : Int), [Event.accept 6 7]) :=
  ⟨by decide,
    C24_accept_handler demoPort ⟨true, fun _ => some (fun l c => l + c), fun _ _ => 0⟩
      [5, 6, 0] 99 7 80 (fun l c => l + c) (by decide) rfl⟩

/-- C25: when the listener found for `portno` has no accept handler.  With
`CONFIG_NET_TCPBACKLOG`: `tcp_backlogadd(listener, conn)` is called once and its
result is returned; `tcp_callback(dev, listener, UIP_BACKLOG)` is called, once
and after it, exactly when that result is `OK`; a failed `tcp_backlogadd` gives
a result other than `OK` (the outcome `Rejected`) and no `tcp_callback`.
Without `CONFIG_NET_TCPBACKLOG`: the result is `ERROR` and no call is made. -/
theorem C25_accept_backlog (lport : Ptr → Nat) (env : AcceptEnv) (tbl : Table)
    (dev conn : Ptr) (portno : Nat)
    (hl : tcp_findlistener lport tbl portno ≠ NULL)
    (hh : env.accept (tcp_findlistener lport tbl portno) = none) :
    (env.CONFIG_NET_TCPBACKLOG = true →
      (tcp_accept_connection lport env tbl dev conn portno).1
          = env.tcp_backlogadd (tcp_findlistener lport tbl portno) conn ∧
      (tcp_accept_connection lport env tbl dev conn portno).2
          = Event.backlogadd (tcp_findlistener lport tbl portno) conn ::
            (if env.tcp_backlogadd (tcp_findlistener lport tbl portno) conn = OK
              then [Event.callback dev (tcp_findlistener lport tbl portno)] else []) ∧
      (Event.callback dev (tcp_findlistener lport tbl portno)
          ∈ (tcp_accept_connection lport env tbl dev conn portno).2 ↔
        env.tcp_backlogadd (tcp_findlistener lport tbl portno) conn = OK) ∧
      (env.tcp_backlogadd (tcp_findlistener lport tbl portno) conn ≠ OK →
        (tcp_accept_connection lport env tbl dev conn portno).1 ≠ OK ∧
        (tcp_accept_connection lport env tbl dev conn portno).2
          = [Event.backlogadd (tcp_findlistener lport tbl portno) conn])) ∧
    (env.CONFIG_NET_TCPBACKLOG = false →
      tcp_accept_connection lport env tbl dev conn portno = (ERROR, [])) := by
  unfold tcp_accept_connection
  simp only []
  rw [if_pos hl, hh]
  constructor
  · intro hb
    simp only [hb, if_true]
    by_cases hr : env.tcp_backlogadd (tcp_findlistener lport tbl portno) conn = OK
    · simp [hr]
    · simp [hr]
  · intro hb
    simp [hb]

/-- C25 evaluated on the listener `6` of port `80`, no handler: a backlog with
room gives `OK`, the enqueue and the notification; a full backlog (result
`-12`) gives `-12` and the enqueue attempt only; without the backlog the result
is `ERROR` and nothing is called. -/
theorem C25_accept_backlog_witness :
    tcp_accept_connection demoPort ⟨true, fun _ => none, fun _ _ => 0⟩ [5, 6, 0] 99 7 80
      = (OK, [Event.backlogadd 6 7, Event.callback 99 6]) ∧
    tcp_accept_connection demoPort ⟨true, fun _ => none, fun _ _ => -12⟩ [5, 6, 0] 99 7 80
      = (-12, [Event.backlogadd 6 7]) ∧
    ((tcp_accept_connection demoPort ⟨true, fun _ => none, fun _ _ => -12⟩
        [5, 6, 0] 99 7 80).1 ≠ OK ∧
      (tcp_accept_connection demoPort ⟨true, fun _ => none, fun _ _ => -12⟩
        [5, 6, 0] 99 7 80).2 = [Event.backlogadd (tcp_findlistener demoPort [5, 6, 0] 80) 7]) ∧
    tcp_accept_connection demoPort ⟨false, fun _ => none, fun _ _ => 0⟩ [5, 6, 0] 99 7 80
      = (ERROR, []) :=
  ⟨by decide, by decide,
    ((C25_accept_backlog demoPort ⟨true, fun _ => none, fun _ _ => -12⟩ [5, 6, 0] 99 7 80
      (by decide) rfl).1 rfl).2.2.2 (by decide),
    (C25_accept_backlog demoPort ⟨false, fun _ => none, fun _ _ => 0⟩ [5, 6, 0] 99 7 80
      (by decide) rfl).2 rfl⟩

/-- C26: `tcp_islistener(portno)` is the spec's `is_listening(port)`: it is
true exactly when `tcp_findlistener(portno)` returns a connection (a result
other than `NULL`), and the scan of the code returns what the scan of the spec
returns. -/
theorem C26_islistener_iff_findlistener (lport : Ptr → Nat) (tbl : Table) (portno : Nat) :
    (tcp_islistener lport tbl portno = true ↔ tcp_findlistener lport tbl portno ≠ NULL) ∧
    tcp_islistener lport tbl portno = is_listening lport tbl portno ∧
    (find_listener lport tbl portno = none ↔ tcp_findlistener lport tbl portno = NULL) ∧
    (∀ c : Ptr, find_listener lport tbl portno = some c ↔
      (tcp_findlistener lport tbl portno = c ∧ c ≠ NULL)) := by
  have heq := find_listener_eq lport tbl portno
  refine ⟨by simp [tcp_islistener], ?_, ?_, ?_⟩
  · unfold is_listening tcp_islistener
    rw [heq]
    by_cases h : tcp_findlistener lport tbl portno = NULL
    · simp [h]
    · simp [h]
  · rw [heq]
    by_cases h : tcp_findlistener lport tbl portno = NULL
    · simp [h]
    · simp [h]
  · intro c
    rw [heq]
    by_cases h : tcp_findlistener lport tbl portno = NULL
    · rw [if_pos h]
      constructor
      · intro h2
        exact Option.noConfusion h2
      · rintro ⟨h2, h3⟩
        exact absurd (h2.symm.trans h) h3
    · rw [if_neg h]
      constructor
      · intro h2
        have h3 := Option.some.inj h2
        exact ⟨h3, by rw [← h3]; exact h⟩
      · rintro ⟨h2, _⟩
        rw [h2]

/-- C28: if `tcp_listen(conn)` returns `OK` from the table `tbl`, then
`tcp_unlisten(conn)` right afterwards returns `OK` and leaves the table `tbl`,
slot for slot. -/
theorem C28_listen_unlisten_roundtrip (lport : Ptr → Nat) (tbl : Table) (conn : Ptr)
    (hok : (tcp_listen lport tbl conn).1 = OK) :
    tcp_unlisten (tcp_listen lport tbl conn).2 conn = (OK, tbl) := by
  obtain ⟨i, hi, hlow, hport, he⟩ := listen_ok_first lport tbl conn hok
  have hlt : i < tbl.length := (List.getElem?_eq_some.mp hi).1
  rw [he]
  show tcp_unlisten (tbl.set i conn) conn = (OK, tbl)
  rcases unlisten_spec (tbl.set i conn) conn with ⟨k, hk, hklow, heq⟩ | ⟨hnot, _⟩
  · have hki : k = i := by
      rcases Nat.lt_trichotomy k i with h | h | h
      · exfalso
        rw [List.getElem?_set_ne (Nat.ne_of_gt h)] at hk
        have hnn : conn ≠ NULL := by
          intro h0
          rw [h0] at hk
          exact hlow k h hk
        exact hport conn (List.mem_iff_getElem?.mpr ⟨k, hk⟩) hnn rfl
      · exact h
      · exact absurd (List.getElem?_set_self hlt) (hklow i h)
    rw [heq, hki, set_restore conn hi]
  · exact absurd (mem_set_self hi) hnot

/-- C28 evaluated: from `[5, 0, 7]`, `tcp_listen(8)` takes slot `1` and
`tcp_unlisten(8)` gives `[5, 0, 7]` back. -/
theorem C28_listen_unlisten_roundtrip_witness :
    tcp_listen (fun c => 1000 + c) [5, 0, 7] 8 = (OK, [5, 8, 7]) ∧
    tcp_unlisten (tcp_listen (fun c => 1000 + c) [5, 0, 7] 8).2 8 = (OK, [5, 0, 7]) :=
  ⟨by decide,
    C28_listen_unlisten_roundtrip (fun c => 1000 + c) [5, 0, 7] 8 (by decide)⟩

/-- C29: for a port `q` other than `conn->lport`, `tcp_findlistener(q)` returns
the same connection after `tcp_listen(conn)` as before it, and the same after
`tcp_unlisten(conn)` as before it, whatever the two calls return. -/
theorem C29_other_ports_unchanged (lport : Ptr → Nat) (tbl : Table) (conn : Ptr)
    (q : Nat) (hq : q ≠ lport conn) :
    tcp_findlistener lport (tcp_listen lport tbl conn).2 q = tcp_findlistener lport tbl q ∧
    tcp_findlistener lport (tcp_unlisten tbl conn).2 q = tcp_findlistener lport tbl q := by
  constructor
  · rcases listen_cases lport tbl conn with ⟨_, he⟩ | ⟨_, _, he⟩ | ⟨i, hi, _, he⟩
    · rw [he]
    · rw [he]
    · rw [he]
      exact findlistener_set_other lport q conn (Or.inr (Ne.symm hq)) tbl i NULL hi
        (Or.inl rfl)
  · rcases unlisten_spec tbl conn with ⟨i, hi, _, he⟩ | ⟨_, he⟩
    · rw [he]
      exact findlistener_set_other lport q NULL (Or.inl rfl) tbl i conn hi
        (Or.inr (Ne.symm hq))
    · rw [he]

/-- C29 evaluated on `[5, 6, 0]` for the port `1005` of the listener `5`:
`tcp_listen(8)` takes slot `2`, `tcp_unlisten(8)` finds nothing, and the
listener of port `1005` is `5` before and after either call. -/
theorem C29_other_ports_unchanged_witness :
    tcp_listen (fun c => 1000 + c) [5, 6, 0] 8 = (OK, [5, 6, 8]) ∧
    tcp_findlistener (fun c => 1000 + c) [5, 6, 0] 1005 = 5 ∧
    (tcp_findlistener (fun c => 1000 + c) (tcp_listen (fun c => 1000 + c) [5, 6, 0] 8).2 1005
        = tcp_findlistener (fun c => 1000 + c) [5, 6, 0] 1005 ∧
      tcp_findlistener (fun c => 1000 + c) (tcp_unlisten [5, 6, 0] 8).2 1005
        = tcp_findlistener (fun c => 1000 + c) [5, 6, 0] 1005) :=
  ⟨by decide, by decide,
    C29_other_ports_unchanged (fun c => 1000 + c) [5, 6, 0] 8 1005 (by decide)⟩

/-- C30: after `tcp_listeninit`, whatever the `N` slots of the table held
before, the table has the same `N` slots, every one of them `NULL`;
`tcp_findlistener(p)` returns `NULL` and `tcp_islistener(p)` is false for every
port `p`; and `tcp_unlisten` of a non-null connection returns `-EINVAL` and
changes nothing. -/
theorem C30_listeninit_empties (lport : Ptr → Nat) (prior : Table) :
    (tcp_listeninit prior.length).length = prior.length ∧
    (∀ i : Nat, i < prior.length → (tcp_listeninit prior.length)[i]? = some NULL) ∧
    (∀ p : Nat, tcp_findlistener lport (tcp_listeninit prior.length) p = NULL ∧
      tcp_islistener lport (tcp_listeninit prior.length) p = false) ∧
    (∀ conn : Ptr, conn ≠ NULL →
      tcp_unlisten (tcp_listeninit prior.length) conn
        = (-EINVAL, tcp_listeninit prior.length)) := by
  refine ⟨by simp [tcp_listeninit], ?_, ?_, ?_⟩
  · intro i hi
    unfold tcp_listeninit
    exact List.getElem?_replicate_of_lt hi
  · intro p
    have hfree : ∀ c ∈ tcp_listeninit prior.length, c ≠ NULL → lport c ≠ p :=
      fun c hc hcn => absurd (listeninit_mem _ c hc) hcn
    exact ⟨(findlistener_null_iff lport _ p).mpr hfree,
      (islistener_false_iff lport _ p).mpr hfree⟩
  · intro conn hconn
    rcases unlisten_spec (tcp_listeninit prior.length) conn with ⟨i, hi, _, _⟩ | ⟨_, he⟩
    · exact absurd (listeninit_mem _ conn (List.mem_iff_getElem?.mpr ⟨i, hi⟩)) hconn
    · exact he

theorem set_same {l : Table} {i : Nat} {a : Ptr} (hi : l[i]? = some a) :
    l.set i a = l := by
  have h := set_restore a hi
  rw [List.set_set] at h
  exact h

/-- C34: `tcp_unlisten(NULL)` matches an unassigned slot.  It returns `OK`
exactly when some slot is `NULL`, `-EINVAL` when every slot is assigned, and in
both cases the table is left as it was: the slot it writes already held
`NULL`. -/
theorem C34_unlisten_null (tbl : Table) :
    ((tcp_unlisten tbl NULL).1 = OK ↔ NULL ∈ tbl) ∧
    (NULL ∈ tbl → tcp_unlisten tbl NULL = (OK, tbl)) ∧
    (NULL ∉ tbl → tcp_unlisten tbl NULL = (-EINVAL, tbl)) ∧
    (tcp_unlisten tbl NULL).2 = tbl := by
  rcases unlisten_spec tbl NULL with ⟨i, hi, _, he⟩ | ⟨hnot, he⟩
  · have hmem : NULL ∈ tbl := List.mem_iff_getElem?.mpr ⟨i, hi⟩
    rw [set_same hi] at he
    refine ⟨?_, fun _ => he, fun h => absurd hmem h, by rw [he]⟩
    rw [he]
    exact ⟨fun _ => hmem, fun _ => rfl⟩
  · refine ⟨?_, fun h => absurd h hnot, fun _ => he, by rw [he]⟩
    rw [he]
    constructor
    · intro h
      exact absurd h (show (-EINVAL : Int) ≠ OK by decide)
    · intro h
      exact absurd h hnot

/-! ## The critical sections -/

end TcpListen

namespace TcpRecvWindow

/-! ## Lemmas on the machine integers and on the three cases -/

theorem toInt32_of_range (x : Int) (h0 : -2147483648 ≤ x) (h1 : x ≤ 2147483647) :
    toInt32 x = x := by
  unfold toInt32
  omega

theorem toUInt16_le (x : Int) : toUInt16 x ≤ 65535 := by
  unfold toUInt16
  omega

theorem toUInt16_of_le (n : Nat) (h : n ≤ 65535) : toUInt16 n = n := by
  unfold toUInt16
  omega

/-- The first case: a chain slot and a throttled buffer are available. -/
theorem recvwindow_case1 (cfg : IobConfig) (pool : IobPool) (mss : Nat) (qempty : Bool)
    (h : pool.qentry_navail > 0 ∧ pool.navail_throttled > 0) :
    tcp_get_recvwindow cfg pool mss qempty =
      toUInt16 (if toUInt32 (toInt32 (pool.navail_throttled * cfg.CONFIG_IOB_BUFSIZE))
          > UINT16_MAX then UINT16_MAX
        else toUInt32 (toInt32 (pool.navail_throttled * cfg.CONFIG_IOB_BUFSIZE))) := by
  unfold tcp_get_recvwindow iob_navail iob_qentry_navail
  simp only [if_true]
  rw [if_pos h]

/-- The second case: the throttle fallback. -/
theorem recvwindow_case2 (cfg : IobConfig) (pool : IobPool) (mss : Nat)
    (h : ¬ (pool.qentry_navail > 0 ∧ pool.navail_throttled > 0))
    (hth : cfg.CONFIG_IOB_THROTTLE > 0) :
    tcp_get_recvwindow cfg pool mss true =
      if (toUInt16 mss : Int) > toInt32 (pool.navail * cfg.CONFIG_IOB_BUFSIZE) then
        toUInt16 (toInt32 (pool.navail * cfg.CONFIG_IOB_BUFSIZE))
      else toUInt16 mss := by
  unfold tcp_get_recvwindow iob_navail iob_qentry_navail
  simp only [if_true]
  rw [if_neg h, if_pos ⟨hth, trivial⟩]
  simp

/-- The third case: the window is closed. -/
theorem recvwindow_case3 (cfg : IobConfig) (pool : IobPool) (mss : Nat) (qempty : Bool)
    (h : ¬ (pool.qentry_navail > 0 ∧ pool.navail_throttled > 0))
    (h2 : ¬ (cfg.CONFIG_IOB_THROTTLE > 0 ∧ qempty = true)) :
    tcp_get_recvwindow cfg pool mss qempty = 0 := by
  unfold tcp_get_recvwindow iob_navail iob_qentry_navail
  simp only [if_true]
  rw [if_neg h, if_neg h2]

/-- The result of `tcp_get_recvwindow` is a `uint16_t` value, on every
input. -/
theorem recvwindow_le (cfg : IobConfig) (pool : IobPool) (mss : Nat) (qempty : Bool) :
    tcp_get_recvwindow cfg pool mss qempty ≤ 65535 := by
  by_cases h : pool.qentry_navail > 0 ∧ pool.navail_throttled > 0
  · rw [recvwindow_case1 cfg pool mss qempty h]
    exact toUInt16_le _
  · by_cases h2 : cfg.CONFIG_IOB_THROTTLE > 0 ∧ qempty = true
    · obtain ⟨hth, hq⟩ := h2
      subst hq
      rw [recvwindow_case2 cfg pool mss h hth]
      split
      · exact toUInt16_le _
      · exact toUInt16_le _
    · rw [recvwindow_case3 cfg pool mss qempty h h2]
      exact Nat.zero_le _

/-- The first case on a product that fits in `int`: the product cut at
`UINT16_MAX`. -/
theorem recvwindow_case1_value (cfg : IobConfig) (pool : IobPool) (mss : Nat) (qempty : Bool)
    (hq : 1 ≤ pool.qentry_navail) (hn : 1 ≤ pool.navail_throttled)
    (hov : pool.navail_throttled * cfg.CONFIG_IOB_BUFSIZE ≤ INT_MAX) :
    (tcp_get_recvwindow cfg pool mss qempty : Int) =
      min (pool.navail_throttled * cfg.CONFIG_IOB_BUFSIZE) 65535 := by
  rw [recvwindow_case1 cfg pool mss qempty ⟨by omega, by omega⟩]
  have hp : 0 ≤ pool.navail_throttled * (cfg.CONFIG_IOB_BUFSIZE : Int) :=
    Int.mul_nonneg (by omega) (Int.ofNat_nonneg _)
  unfold INT_MAX at hov
  generalize pool.navail_throttled * (cfg.CONFIG_IOB_BUFSIZE : Int) = p at *
  unfold toUInt32 toInt32 toUInt16 UINT16_MAX
  split <;> omega

/-- The throttle fallback on a non-negative count whose product fits in `int`:
the smaller of the MSS and the product. -/
theorem recvwindow_case2_value (cfg : IobConfig) (pool : IobPool) (mss : Nat)
    (h : pool.qentry_navail ≤ 0 ∨ pool.navail_throttled ≤ 0)
    (hth : 0 < cfg.CONFIG_IOB_THROTTLE) (hm : 0 ≤ pool.navail)
    (hov : pool.navail * cfg.CONFIG_IOB_BUFSIZE ≤ INT_MAX) (hmss : mss ≤ 65535) :
    (tcp_get_recvwindow cfg pool mss true : Int) =
      min (mss : Int) (pool.navail * cfg.CONFIG_IOB_BUFSIZE) := by
  rw [recvwindow_case2 cfg pool mss (by omega) hth]
  have hp : 0 ≤ pool.navail * (cfg.CONFIG_IOB_BUFSIZE : Int) :=
    Int.mul_nonneg hm (Int.ofNat_nonneg _)
  unfold INT_MAX at hov
  generalize pool.navail * (cfg.CONFIG_IOB_BUFSIZE : Int) = p at *
  unfold toInt32 toUInt16
  split <;> omega

/-- The value of `tcp_maxrcvwin` on a product that fits in `int`. -/
theorem maxrcvwin_value (cfg : IobConfig)
    (h : cfg.CONFIG_IOB_THROTTLE ≤ cfg.CONFIG_IOB_NBUFFERS)
    (hov : (cfg.CONFIG_IOB_NBUFFERS - cfg.CONFIG_IOB_THROTTLE) * cfg.CONFIG_IOB_BUFSIZE
      ≤ 2147483647) :
    tcp_maxrcvwin cfg =
      min ((cfg.CONFIG_IOB_NBUFFERS - cfg.CONFIG_IOB_THROTTLE) * cfg.CONFIG_IOB_BUFSIZE)
        65535 := by
  unfold tcp_maxrcvwin
  have hcast : ((cfg.CONFIG_IOB_NBUFFERS : Int) - cfg.CONFIG_IOB_THROTTLE)
      * cfg.CONFIG_IOB_BUFSIZE
      = (((cfg.CONFIG_IOB_NBUFFERS - cfg.CONFIG_IOB_THROTTLE) * cfg.CONFIG_IOB_BUFSIZE : Nat)
          : Int) := by
    push_cast [Nat.cast_sub h]
    ring
  rw [hcast]
  generalize (cfg.CONFIG_IOB_NBUFFERS - cfg.CONFIG_IOB_THROTTLE) * cfg.CONFIG_IOB_BUFSIZE = p at *
  simp only []
  unfold toUInt32 toInt32 toUInt16 UINT16_MAX
  split <;> omega

/-! ## The receive window -/

/-- C11: with at least one chain slot and a throttled count `n ≥ 1`,
`tcp_get_recvwindow` returns `min (n * CONFIG_IOB_BUFSIZE) 65535`, whatever the
MSS, the read-ahead queue and the unthrottled count.  The product
`n * CONFIG_IOB_BUFSIZE` is an `int` product of the code: it lies in the range
of `int` (at most `INT_MAX`), where C defines it. -/
theorem C11_recvwindow_case1 (cfg : IobConfig) (n nq : Int)
    (hq : 1 ≤ nq) (hn : 1 ≤ n) (hov : n * cfg.CONFIG_IOB_BUFSIZE ≤ INT_MAX) :
    ∀ (m : Int) (mss : Nat) (qempty : Bool),
      (tcp_get_recvwindow cfg ⟨n, m, nq⟩ mss qempty : Int) =
        min (n * cfg.CONFIG_IOB_BUFSIZE) 65535 :=
  fun m mss qempty => recvwindow_case1_value cfg ⟨n, m, nq⟩ mss qempty hq hn hov

/-- C11 evaluated on the scenario of the spec: `8` buffers of `1460` bytes and
one chain slot give `11680`. -/
theorem C11_recvwindow_case1_witness :
    tcp_get_recvwindow ⟨10, 2, 1460⟩ ⟨8, 10, 1⟩ 1460 true = 11680 ∧
    ∀ (m : Int) (mss : Nat) (qempty : Bool),
      (tcp_get_recvwindow ⟨10, 2, 1460⟩ ⟨8, m, 1⟩ mss qempty : Int) =
        min ((8 : Int) * (1460 : Nat)) 65535 :=
  ⟨by decide, C11_recvwindow_case1 ⟨10, 2, 1460⟩ 8 1 (by decide) (by decide) (by decide)⟩

/-- C12: with `CONFIG_IOB_THROTTLE > 0`, no chain slot or no throttled buffer
available and the read-ahead queue empty, `tcp_get_recvwindow` returns
`min mss (m * CONFIG_IOB_BUFSIZE)`, where `m` is the unthrottled count.  The
count `m` is a number of buffers, not negative; the product
`m * CONFIG_IOB_BUFSIZE` is an `int` product of the code and lies in the range
of `int` (at most `INT_MAX`), where C defines it; the MSS is a `uint16_t`
value. -/
theorem C12_recvwindow_throttle (cfg : IobConfig) (pool : IobPool) (mss : Nat)
    (hth : 0 < cfg.CONFIG_IOB_THROTTLE)
    (hcase : pool.qentry_navail ≤ 0 ∨ pool.navail_throttled ≤ 0)
    (hm : 0 ≤ pool.navail)
    (hov : pool.navail * cfg.CONFIG_IOB_BUFSIZE ≤ INT_MAX) (hmss : mss ≤ 65535) :
    (tcp_get_recvwindow cfg pool mss true : Int) =
      min (mss : Int) (pool.navail * cfg.CONFIG_IOB_BUFSIZE) :=
  recvwindow_case2_value cfg pool mss hcase hth hm hov hmss

/-- C12 evaluated: `24` buffers of `196` bytes, `8` held back; with `3`
buffers left and none for throttled callers the window is `3 * 196 = 588`,
with `8` left it is the MSS `1460`. -/
theorem C12_recvwindow_throttle_witness :
    tcp_get_recvwindow ⟨24, 8, 196⟩ ⟨0, 8, 1⟩ 1460 true = 1460 ∧
    (tcp_get_recvwindow ⟨24, 8, 196⟩ ⟨0, 3, 1⟩ 1460 true : Int) =
      min ((1460 : Nat) : Int) ((3 : Int) * (196 : Nat)) :=
  ⟨by decide, C12_recvwindow_throttle ⟨24, 8, 196⟩ ⟨0, 3, 1⟩ 1460 (by decide)
    (by decide) (by decide) (by decide) (by decide)⟩

/-- C13: when no chain slot or no throttled buffer is available and throttling
is disabled (`CONFIG_IOB_THROTTLE` is `0`) or the read-ahead queue is not
empty, `tcp_get_recvwindow` returns `0`. -/
theorem C13_recvwindow_closed (cfg : IobConfig) (pool : IobPool) (mss : Nat)
    (qempty : Bool)
    (hcase : pool.qentry_navail ≤ 0 ∨ pool.navail_throttled ≤ 0)
    (h2 : cfg.CONFIG_IOB_THROTTLE = 0 ∨ qempty = false) :
    tcp_get_recvwindow cfg pool mss qempty = 0 := by
  apply recvwindow_case3 cfg pool mss qempty (by omega)
  rintro ⟨hth, hq⟩
  rcases h2 with h2 | h2
  · omega
  · rw [hq] at h2
    exact Bool.noConfusion h2

/-- C13 evaluated on the scenario of the spec: no buffer, no chain slot,
throttling disabled. -/
theorem C13_recvwindow_closed_witness :
    tcp_get_recvwindow ⟨10, 0, 1460⟩ ⟨0, 0, 0⟩ 1460 true = 0 :=
  C13_recvwindow_closed ⟨10, 0, 1460⟩ ⟨0, 0, 0⟩ 1460 true (by decide) (by decide)

/-- C15 on the code: with `8` buffers of `196` bytes, `2` held back, the one
buffer in use sitting in the last chain slot (so no chain slot, `5` throttled
and `7` unthrottled buffers are available, both within the bounds of the
claim), an MSS of `1460` and the read-ahead queue of the connection empty, the
throttle fallback advertises `7 * 196 = 1372` while `tcp_maxrcvwin` is
`(8 - 2) * 196 = 1176`. -/
theorem C15_recvwindow_exceeds_maxrcvwin :
    (5 : Int) ≤ 8 - 2 ∧ (7 : Int) ≤ 8 ∧
    tcp_get_recvwindow ⟨8, 2, 196⟩ ⟨5, 7, 0⟩ 1460 true = 1372 ∧
    tcp_maxrcvwin ⟨8, 2, 196⟩ = 1176 ∧
    ¬ (tcp_get_recvwindow ⟨8, 2, 196⟩ ⟨5, 7, 0⟩ 1460 true ≤ tcp_maxrcvwin ⟨8, 2, 196⟩) := by
  decide

/-- C16: for `CONFIG_IOB_NBUFFERS >= CONFIG_IOB_THROTTLE`, `tcp_maxrcvwin`
returns the product
`(CONFIG_IOB_NBUFFERS - CONFIG_IOB_THROTTLE) * CONFIG_IOB_BUFSIZE` cut at
`65535`: the product when it is below `65535`, and `65535` otherwise, never the
product reduced modulo `2^16`.  The product is an `int` product of the code: it
lies in the range of `int` (at most `2^31 - 1`), where C defines it. -/
theorem C16_maxrcvwin_saturates (cfg : IobConfig)
    (h : cfg.CONFIG_IOB_THROTTLE ≤ cfg.CONFIG_IOB_NBUFFERS)
    (hov : (cfg.CONFIG_IOB_NBUFFERS - cfg.CONFIG_IOB_THROTTLE) * cfg.CONFIG_IOB_BUFSIZE
      ≤ 2147483647) :
    tcp_maxrcvwin cfg =
        min ((cfg.CONFIG_IOB_NBUFFERS - cfg.CONFIG_IOB_THROTTLE) * cfg.CONFIG_IOB_BUFSIZE)
          65535 ∧
    ((cfg.CONFIG_IOB_NBUFFERS - cfg.CONFIG_IOB_THROTTLE) * cfg.CONFIG_IOB_BUFSIZE < 65535 →
      tcp_maxrcvwin cfg =
        (cfg.CONFIG_IOB_NBUFFERS - cfg.CONFIG_IOB_THROTTLE) * cfg.CONFIG_IOB_BUFSIZE) ∧
    (65535 ≤ (cfg.CONFIG_IOB_NBUFFERS - cfg.CONFIG_IOB_THROTTLE) * cfg.CONFIG_IOB_BUFSIZE →
      tcp_maxrcvwin cfg = 65535) := by
  have hv := maxrcvwin_value cfg h hov
  refine ⟨hv, ?_, ?_⟩
  · intro hlt
    rw [hv]
    omega
  · intro hge
    rw [hv]
    omega

/-- C16 evaluated: `10` buffers of `1460` bytes, `2` held back, give `11680`;
`100` buffers give `65535`, where the product `143080` reduced modulo `2^16`
would be `12008`. -/
theorem C16_maxrcvwin_saturates_witness :
    tcp_maxrcvwin ⟨10, 2, 1460⟩ = 11680 ∧ tcp_maxrcvwin ⟨100, 2, 1460⟩ = 65535 ∧
    (tcp_maxrcvwin ⟨100, 2, 1460⟩ = min ((100 - 2) * 1460) 65535 ∧
      ((100 - 2) * 1460 < 65535 → tcp_maxrcvwin ⟨100, 2, 1460⟩ = (100 - 2) * 1460) ∧
      (65535 ≤ (100 - 2) * 1460 → tcp_maxrcvwin ⟨100, 2, 1460⟩ = 65535)) :=
  ⟨by decide, by decide, C16_maxrcvwin_saturates ⟨100, 2, 1460⟩ (by decide) (by decide)⟩

/-- C17: the result of `tcp_get_recvwindow` is at most `65535` on every input;
and for non-negative counts, every MSS (a `uint16_t` value) and every
configuration it is the saturated value of its case, with no reduction modulo
`2^16`, however large the counts are: `min (n * CONFIG_IOB_BUFSIZE) 65535` in
the first case, `min mss (m * CONFIG_IOB_BUFSIZE)` in the throttle fallback, `0`
otherwise.  The two products are `int` products of the code: they lie in the
range of `int` (at most `INT_MAX`), where C defines them. -/
theorem C17_recvwindow_saturates (cfg : IobConfig) (pool : IobPool) (mss : Nat)
    (qempty : Bool) :
    tcp_get_recvwindow cfg pool mss qempty ≤ 65535 ∧
    (0 ≤ pool.navail →
      pool.navail_throttled * cfg.CONFIG_IOB_BUFSIZE ≤ INT_MAX →
      pool.navail * cfg.CONFIG_IOB_BUFSIZE ≤ INT_MAX →
      mss ≤ 65535 →
      (tcp_get_recvwindow cfg pool mss qempty : Int) =
        if pool.qentry_navail > 0 ∧ pool.navail_throttled > 0 then
          min (pool.navail_throttled * cfg.CONFIG_IOB_BUFSIZE) 65535
        else if cfg.CONFIG_IOB_THROTTLE > 0 ∧ qempty = true then
          min (mss : Int) (pool.navail * cfg.CONFIG_IOB_BUFSIZE)
        else 0) := by
  refine ⟨recvwindow_le cfg pool mss qempty, ?_⟩
  intro hm hov1 hov2 hmss
  by_cases h : pool.qentry_navail > 0 ∧ pool.navail_throttled > 0
  · rw [if_pos h]
    exact recvwindow_case1_value cfg pool mss qempty (by omega) (by omega) hov1
  · rw [if_neg h]
    by_cases h2 : cfg.CONFIG_IOB_THROTTLE > 0 ∧ qempty = true
    · rw [if_pos h2]
      obtain ⟨hth, hq⟩ := h2
      subst hq
      exact recvwindow_case2_value cfg pool mss (by omega) hth hm hov2 hmss
    · rw [if_neg h2, recvwindow_case3 cfg pool mss qempty h h2]
      rfl

/-- C17 evaluated: `1000` buffers of `1460` bytes give `65535`, where the
product `1460000` reduced modulo `2^16` would be `18208`. -/
theorem C17_recvwindow_saturates_witness :
    tcp_get_recvwindow ⟨1008, 8, 1460⟩ ⟨1000, 1008, 1⟩ 1460 true = 65535 ∧
    (1460000 : Nat) % 65536 = 18208 ∧
    tcp_get_recvwindow ⟨1008, 8, 1460⟩ ⟨1000, 1008, 1⟩ 1460 true ≤ 65535 ∧
    (tcp_get_recvwindow ⟨1008, 8, 1460⟩ ⟨1000, 1008, 1⟩ 1460 true : Int) =
      (if (1 : Int) > 0 ∧ (1000 : Int) > 0 then
        min ((1000 : Int) * (1460 : Nat)) 65535
      else if 8 > 0 ∧ true = true then
        min ((1460 : Nat) : Int) ((1008 : Int) * (1460 : Nat))
      else 0) :=
  ⟨by decide, by decide,
    (C17_recvwindow_saturates ⟨1008, 8, 1460⟩ ⟨1000, 1008, 1⟩ 1460 true).1,
    (C17_recvwindow_saturates ⟨1008, 8, 1460⟩ ⟨1000, 1008, 1⟩ 1460 true).2
      (by decide) (by decide) (by decide) (by decide)⟩

/-! ## The window-update decision -/

/-- C18: `tcp_should_send_recvwindow` returns `false` whenever the new window
(the value of `tcp_get_recvwindow`) is at most the old window `oldwin`,
whatever `tcp_maxrcvwin` and the MSS are. -/
theorem C18_no_update_unless_window_grows (cfg : IobConfig) (pool : IobPool)
    (mss : Nat) (qempty : Bool) (rcv_adv rcvseq : Nat)
    (h : tcp_get_recvwindow cfg pool mss qempty ≤ oldwin rcv_adv rcvseq) :
    tcp_should_send_recvwindow cfg pool mss qempty rcv_adv rcvseq = false := by
  unfold tcp_should_send_recvwindow
  simp only []
  rw [if_pos h]

/-- C18 evaluated with an MSS of `0`: an old window of `1000` and a new window
of `900` (nine buffers of `100` bytes) give `false`; so does a new window equal
to the old one. -/
theorem C18_no_update_unless_window_grows_witness :
    oldwin 1000 0 = 1000 ∧ tcp_get_recvwindow ⟨20, 0, 100⟩ ⟨9, 9, 1⟩ 0 true = 900 ∧
    tcp_get_recvwindow ⟨20, 0, 100⟩ ⟨10, 10, 1⟩ 0 true = 1000 ∧
    tcp_should_send_recvwindow ⟨20, 0, 100⟩ ⟨10, 10, 1⟩ 0 true 1000 0 = false ∧
    tcp_should_send_recvwindow ⟨20, 0, 100⟩ ⟨9, 9, 1⟩ 0 true 1000 0 = false :=
  ⟨by decide, by decide, by decide, by decide,
    C18_no_update_unless_window_grows ⟨20, 0, 100⟩ ⟨9, 9, 1⟩ 0 true 1000 0 (by decide)⟩

/-- C19: when the new window exceeds the old window, with `delta` their
difference, `tcp_should_send_recvwindow` returns `true` exactly when
`delta * 2 >= tcp_maxrcvwin` or `delta >= 2 * mss`.  The MSS is a `uint16_t`
value. -/
theorem C19_update_iff_half_max_or_two_mss (cfg : IobConfig) (pool : IobPool)
    (mss : Nat) (qempty : Bool) (rcv_adv rcvseq : Nat)
    (hgt : oldwin rcv_adv rcvseq < tcp_get_recvwindow cfg pool mss qempty)
    (hmss : mss ≤ 65535) :
    tcp_should_send_recvwindow cfg pool mss qempty rcv_adv rcvseq = true ↔
      ((tcp_get_recvwindow cfg pool mss qempty - oldwin rcv_adv rcvseq) * 2
          ≥ tcp_maxrcvwin cfg ∨
        tcp_get_recvwindow cfg pool mss qempty - oldwin rcv_adv rcvseq ≥ 2 * mss) := by
  have hw := recvwindow_le cfg pool mss qempty
  unfold tcp_should_send_recvwindow
  simp only []
  rw [if_neg (Nat.not_le.mpr hgt)]
  generalize tcp_get_recvwindow cfg pool mss qempty = w at *
  generalize oldwin rcv_adv rcvseq = o at *
  generalize tcp_maxrcvwin cfg = mx at *
  have hadv : toUInt16 ((w : Int) - o) = w - o := by
    unfold toUInt16
    omega
  have hm : toUInt16 (mss : Int) = mss := toUInt16_of_le mss hmss
  rw [hadv, hm]
  by_cases h1 : 2 * ((w - o : Nat) : Int) ≥ (mx : Int)
  · rw [if_pos h1]
    constructor
    · intro _
      left
      omega
    · intro _
      rfl
  · rw [if_neg h1]
    by_cases h2 : ((w - o : Nat) : Int) ≥ 2 * (mss : Int)
    · rw [if_pos h2]
      constructor
      · intro _
        right
        omega
      · intro _
        rfl
    · rw [if_neg h2]
      constructor
      · intro hf
        exact Bool.noConfusion hf
      · intro hor
        rcases hor with h | h
        · omega
        · omega

/-- C19 evaluated on the scenario of the spec: old window `1000`,
`tcp_maxrcvwin = 20000`, new window `11000`; `delta = 10000` and
`2 * delta >= 20000`, so the result is `true` (the MSS `6000` alone would not
give it). -/
theorem C19_update_iff_half_max_or_two_mss_witness :
    oldwin 1000 0 = 1000 ∧ tcp_maxrcvwin ⟨20, 0, 1000⟩ = 20000 ∧
    tcp_get_recvwindow ⟨20, 0, 1000⟩ ⟨11, 11, 1⟩ 6000 true = 11000 ∧
    tcp_should_send_recvwindow ⟨20, 0, 1000⟩ ⟨11, 11, 1⟩ 6000 true 1000 0 = true ∧
    (tcp_should_send_recvwindow ⟨20, 0, 1000⟩ ⟨11, 11, 1⟩ 6000 true 1000 0 = true ↔
      ((tcp_get_recvwindow ⟨20, 0, 1000⟩ ⟨11, 11, 1⟩ 6000 true - oldwin 1000 0) * 2
          ≥ tcp_maxrcvwin ⟨20, 0, 1000⟩ ∨
        tcp_get_recvwindow ⟨20, 0, 1000⟩ ⟨11, 11, 1⟩ 6000 true - oldwin 1000 0
          ≥ 2 * 6000)) :=
  ⟨by decide, by decide, by decide, by decide,
    C19_update_iff_half_max_or_two_mss ⟨20, 0, 1000⟩ ⟨11, 11, 1⟩ 6000 true 1000 0
      (by decide) (by decide)⟩

/-- C20 as stated fails: for `rcv_adv = 0x10000` and `rcvseq = 0` the advertised
edge is ahead of `rcvseq` in the wraparound-aware order and the difference
modulo `2^32` is `65536`, but `oldwin`, a `uint16_t`, is `0`. -/
theorem C20_oldwin_truncated_counterexample :
    TCP_SEQ_GT 65536 0 = true ∧ ((65536 : Int) - 0) % 4294967296 = 65536 ∧
    oldwin 65536 0 = 0 ∧ (oldwin 65536 0 : Int) ≠ ((65536 : Int) - 0) % 4294967296 := by
  decide

/-- C20, amended: when `rcv_adv` is greater than `rcvseq` in the
wraparound-aware order, `oldwin` is the difference `(rcv_adv - rcvseq) mod 2^32`
reduced modulo `2^16` (it is stored in a `uint16_t`), hence the difference
itself whenever that is at most `65535`; otherwise `oldwin` is `0`.  For
`rcvseq = 0xFFFFFF00` and `rcv_adv = 0x00000100` it is `512`; for `rcv_adv`
behind `rcvseq` it is `0`. -/
theorem C20_oldwin_value (rcv_adv rcvseq : Nat) :
    (TCP_SEQ_GT rcv_adv rcvseq = true →
      (oldwin rcv_adv rcvseq : Int) = ((rcv_adv : Int) - rcvseq) % 4294967296 % 65536) ∧
    (TCP_SEQ_GT rcv_adv rcvseq = true →
      ((rcv_adv : Int) - rcvseq) % 4294967296 ≤ 65535 →
      (oldwin rcv_adv rcvseq : Int) = ((rcv_adv : Int) - rcvseq) % 4294967296) ∧
    (TCP_SEQ_GT rcv_adv rcvseq = false → oldwin rcv_adv rcvseq = 0) ∧
    oldwin 0x00000100 0xFFFFFF00 = 512 ∧ oldwin 0xFFFFFF00 0x00000100 = 0 := by
  have hval : TCP_SEQ_GT rcv_adv rcvseq = true →
      (oldwin rcv_adv rcvseq : Int) = ((rcv_adv : Int) - rcvseq) % 4294967296 % 65536 := by
    intro hgt
    unfold oldwin
    rw [if_pos hgt]
    unfold toUInt16 TCP_SEQ_SUB toUInt32
    omega
  refine ⟨hval, ?_, ?_, by decide, by decide⟩
  · intro hgt hle
    rw [hval hgt]
    omega
  · intro hgt
    unfold oldwin
    rw [hgt]
    simp

/-! ## Degenerate configurations -/

/-- C21 as stated fails: with `2` buffers of `196` bytes and `8` held back the
`int` product `(2 - 8) * 196 = -1176` converts to the `size_t` value
`2^32 - 1176`, which is not below `UINT16_MAX`, and `tcp_maxrcvwin` returns
`65535`, not `0`. -/
theorem C21_maxrcvwin_underflow_counterexample :
    (2 : Nat) ≤ 8 ∧ toUInt32 (toInt32 (((2 : Int) - 8) * 196)) = 4294966120 ∧
    tcp_maxrcvwin ⟨2, 8, 196⟩ = 65535 ∧ tcp_maxrcvwin ⟨2, 8, 196⟩ ≠ 0 := by
  decide

/-- C21, amended: for `CONFIG_IOB_THROTTLE >= CONFIG_IOB_NBUFFERS` (the product
of their difference with `CONFIG_IOB_BUFSIZE` within `int`), `tcp_maxrcvwin`
returns `0` when the two are equal (both `0` included) or the buffer size is
`0`; otherwise the product is negative, its `size_t` value is not below
`UINT16_MAX`, and the result is `65535`. -/
theorem C21_maxrcvwin_no_capacity (cfg : IobConfig)
    (h : cfg.CONFIG_IOB_NBUFFERS ≤ cfg.CONFIG_IOB_THROTTLE)
    (hov : (cfg.CONFIG_IOB_THROTTLE - cfg.CONFIG_IOB_NBUFFERS) * cfg.CONFIG_IOB_BUFSIZE
      ≤ 2147483648) :
    tcp_maxrcvwin cfg =
      if cfg.CONFIG_IOB_THROTTLE = cfg.CONFIG_IOB_NBUFFERS ∨ cfg.CONFIG_IOB_BUFSIZE = 0
      then 0 else 65535 := by
  unfold tcp_maxrcvwin
  have hcast : ((cfg.CONFIG_IOB_NBUFFERS : Int) - cfg.CONFIG_IOB_THROTTLE)
      * cfg.CONFIG_IOB_BUFSIZE
      = -(((cfg.CONFIG_IOB_THROTTLE - cfg.CONFIG_IOB_NBUFFERS) * cfg.CONFIG_IOB_BUFSIZE : Nat)
          : Int) := by
    push_cast [Nat.cast_sub h]
    ring
  have hz : (cfg.CONFIG_IOB_THROTTLE = cfg.CONFIG_IOB_NBUFFERS ∨ cfg.CONFIG_IOB_BUFSIZE = 0)
      ↔ (cfg.CONFIG_IOB_THROTTLE - cfg.CONFIG_IOB_NBUFFERS) * cfg.CONFIG_IOB_BUFSIZE = 0 := by
    rw [Nat.mul_eq_zero]
    constructor
    · rintro (h1 | h1)
      · left
        omega
      · right
        exact h1
    · rintro (h1 | h1)
      · left
        omega
      · right
        exact h1
  rw [hcast]
  simp only [hz]
  generalize (cfg.CONFIG_IOB_THROTTLE - cfg.CONFIG_IOB_NBUFFERS) * cfg.CONFIG_IOB_BUFSIZE = p at *
  unfold toUInt32 toInt32 toUInt16 UINT16_MAX
  by_cases hp : p = 0
  · rw [if_pos hp]
    subst hp
    decide
  · rw [if_neg hp]
    split <;> omega

/-- C21 evaluated: throttle equal to the buffer count, and no buffers at all,
give `0`. -/
theorem C21_maxrcvwin_no_capacity_witness :
    tcp_maxrcvwin ⟨0, 0, 196⟩ = 0 ∧
    tcp_maxrcvwin ⟨8, 8, 196⟩ = (if (8 : Nat) = 8 ∨ (196 : Nat) = 0 then 0 else 65535) :=
  ⟨by decide, C21_maxrcvwin_no_capacity ⟨8, 8, 196⟩ (by decide) (by decide)⟩

/-- C22: for an MSS of `0` and non-negative counts, when no chain slot or no
throttled buffer is available, `tcp_get_recvwindow` returns `0`, whatever the
read-ahead queue and the configuration.  The product of the unthrottled count
with `CONFIG_IOB_BUFSIZE` is an `int` product of the code: it lies in the range
of `int` (at most `INT_MAX`), where C defines it. -/
theorem C22_recvwindow_zero_mss (cfg : IobConfig) (pool : IobPool)
    (hcase : pool.qentry_navail ≤ 0 ∨ pool.navail_throttled ≤ 0)
    (hm : 0 ≤ pool.navail)
    (hov : pool.navail * cfg.CONFIG_IOB_BUFSIZE ≤ INT_MAX) :
    ∀ qempty : Bool, tcp_get_recvwindow cfg pool 0 qempty = 0 := by
  intro qempty
  by_cases h2 : cfg.CONFIG_IOB_THROTTLE > 0 ∧ qempty = true
  · obtain ⟨hth, hq⟩ := h2
    subst hq
    have hv := recvwindow_case2_value cfg pool 0 hcase hth hm hov (by decide)
    have hp : 0 ≤ pool.navail * (cfg.CONFIG_IOB_BUFSIZE : Int) :=
      Int.mul_nonneg hm (Int.ofNat_nonneg _)
    have h0 : (tcp_get_recvwindow cfg pool 0 true : Int) = 0 := by
      rw [hv]
      simp only [Nat.cast_zero]
      exact min_eq_left hp
    exact_mod_cast h0
  · exact recvwindow_case3 cfg pool 0 qempty (by omega) h2

/-- C22 evaluated: an MSS of `0` with `8` buffers left and none for throttled
callers gives `0`, queue empty or not. -/
theorem C22_recvwindow_zero_mss_witness :
    tcp_get_recvwindow ⟨24, 8, 196⟩ ⟨0, 8, 1⟩ 0 true = 0 ∧
    ∀ qempty : Bool, tcp_get_recvwindow ⟨24, 8, 196⟩ ⟨0, 8, 1⟩ 0 qempty = 0 :=
  ⟨by decide, C22_recvwindow_zero_mss ⟨24, 8, 196⟩ ⟨0, 8, 1⟩ (by decide) (by decide)
    (by decide)⟩

/-! ## Further properties of the window-update decision -/

/-- The decision of `tcp_should_send_recvwindow` in terms of the two windows:
the new window exceeds the old one, and the growth doubled reaches
`tcp_maxrcvwin` or the growth reaches twice the MSS. -/
theorem should_send_iff (cfg : IobConfig) (pool : IobPool) (mss : Nat) (qempty : Bool)
    (rcv_adv rcvseq : Nat) :
    tcp_should_send_recvwindow cfg pool mss qempty rcv_adv rcvseq = true ↔
      oldwin rcv_adv rcvseq < tcp_get_recvwindow cfg pool mss qempty ∧
      ((tcp_get_recvwindow cfg pool mss qempty - oldwin rcv_adv rcvseq) * 2
          ≥ tcp_maxrcvwin cfg ∨
        tcp_get_recvwindow cfg pool mss qempty - oldwin rcv_adv rcvseq
          ≥ 2 * toUInt16 mss) := by
  have hw := recvwindow_le cfg pool mss qempty
  unfold tcp_should_send_recvwindow
  simp only []
  generalize tcp_get_recvwindow cfg pool mss qempty = w at *
  generalize oldwin rcv_adv rcvseq = o at *
  generalize tcp_maxrcvwin cfg = mx at *
  generalize toUInt16 (mss : Int) = m16 at *
  by_cases hle : w ≤ o
  · rw [if_pos hle]
    constructor
    · intro hf
      exact Bool.noConfusion hf
    · rintro ⟨hlt, _⟩
      omega
  · rw [if_neg hle]
    have hadv : toUInt16 ((w : Int) - o) = w - o := by
      unfold toUInt16
      omega
    rw [hadv]
    by_cases h1 : 2 * ((w - o : Nat) : Int) ≥ (mx : Int)
    · rw [if_pos h1]
      constructor
      · intro _
        exact ⟨by omega, Or.inl (by omega)⟩
      · intro _
        rfl
    · rw [if_neg h1]
      by_cases h2 : ((w - o : Nat) : Int) ≥ 2 * (m16 : Int)
      · rw [if_pos h2]
        constructor
        · intro _
          exact ⟨by omega, Or.inr (by omega)⟩
        · intro _
          rfl
      · rw [if_neg h2]
        constructor
        · intro hf
          exact Bool.noConfusion hf
        · rintro ⟨_, h | h⟩
          · omega
          · omega

theorem maxrcvwin_le (cfg : IobConfig) : tcp_maxrcvwin cfg ≤ 65535 := by
  unfold tcp_maxrcvwin
  simp only []
  split
  · decide
  · exact toUInt16_le _

/-- C31: with the old window, the configuration (hence `tcp_maxrcvwin`) and
the MSS fixed, if `tcp_should_send_recvwindow` returns `true` at a pool state
whose new window is `w`, it returns `true` at every pool state whose new window
`w'` is at least `w` (every new window is at most `65535`). -/
theorem C31_update_monotone_in_window (cfg : IobConfig) (mss : Nat)
    (rcv_adv rcvseq : Nat) (pool pool' : IobPool) (qempty qempty' : Bool)
    (hle : tcp_get_recvwindow cfg pool mss qempty
      ≤ tcp_get_recvwindow cfg pool' mss qempty')
    (h : tcp_should_send_recvwindow cfg pool mss qempty rcv_adv rcvseq = true) :
    tcp_should_send_recvwindow cfg pool' mss qempty' rcv_adv rcvseq = true ∧
    tcp_get_recvwindow cfg pool' mss qempty' ≤ 65535 := by
  refine ⟨?_, recvwindow_le cfg pool' mss qempty'⟩
  rw [should_send_iff] at h ⊢
  obtain ⟨hlt, hor⟩ := h
  refine ⟨by omega, ?_⟩
  rcases hor with h1 | h1
  · left
    omega
  · right
    omega

/-- C31 evaluated: old window `1000`, `tcp_maxrcvwin = 20000`, MSS `6000`; the
update is sent at a new window of `11000` and at a new window of `15000`. -/
theorem C31_update_monotone_in_window_witness :
    tcp_get_recvwindow ⟨20, 0, 1000⟩ ⟨11, 11, 1⟩ 6000 true = 11000 ∧
    tcp_get_recvwindow ⟨20, 0, 1000⟩ ⟨15, 15, 1⟩ 6000 true = 15000 ∧
    tcp_should_send_recvwindow ⟨20, 0, 1000⟩ ⟨11, 11, 1⟩ 6000 true 1000 0 = true ∧
    (tcp_should_send_recvwindow ⟨20, 0, 1000⟩ ⟨15, 15, 1⟩ 6000 true 1000 0 = true ∧
      tcp_get_recvwindow ⟨20, 0, 1000⟩ ⟨15, 15, 1⟩ 6000 true ≤ 65535) :=
  ⟨by decide, by decide, by decide,
    C31_update_monotone_in_window ⟨20, 0, 1000⟩ 6000 1000 0 ⟨11, 11, 1⟩ ⟨15, 15, 1⟩
      true true (by decide) (by decide)⟩

/-- C32: when the new window exceeds the old window, `adv`, their difference
stored in a `uint16_t`, is the difference itself and lies in `1 .. 65535`; and
when it is at least `32768`, `tcp_should_send_recvwindow` returns `true`,
whatever the MSS: `2 * adv` is computed in `int`, is at least `65536`, and
`tcp_maxrcvwin` is at most `65535`. -/
theorem C32_update_no_16bit_wrap (cfg : IobConfig) (pool : IobPool) (mss : Nat)
    (qempty : Bool) (rcv_adv rcvseq : Nat)
    (hgt : oldwin rcv_adv rcvseq < tcp_get_recvwindow cfg pool mss qempty) :
    toUInt16 ((tcp_get_recvwindow cfg pool mss qempty : Int) - oldwin rcv_adv rcvseq)
      = tcp_get_recvwindow cfg pool mss qempty - oldwin rcv_adv rcvseq ∧
    1 ≤ tcp_get_recvwindow cfg pool mss qempty - oldwin rcv_adv rcvseq ∧
    tcp_get_recvwindow cfg pool mss qempty - oldwin rcv_adv rcvseq ≤ 65535 ∧
    tcp_maxrcvwin cfg ≤ 65535 ∧
    (32768 ≤ tcp_get_recvwindow cfg pool mss qempty - oldwin rcv_adv rcvseq →
      tcp_should_send_recvwindow cfg pool mss qempty rcv_adv rcvseq = true) := by
  have hw := recvwindow_le cfg pool mss qempty
  have hmx := maxrcvwin_le cfg
  refine ⟨?_, by omega, by omega, hmx, ?_⟩
  · unfold toUInt16
    omega
  · intro hd
    rw [should_send_iff]
    exact ⟨hgt, Or.inl (by omega)⟩

/-- C32 evaluated: old window `0`, new window `65535`, `tcp_maxrcvwin = 65535`,
MSS `65535`.  The growth is `65535`; doubled in `int` it is `131070`, at least
`65535`, and the result is `true`.  Doubled in 16 bits it would be `65534`, and
with twice the MSS above the growth the result would be `false`. -/
theorem C32_update_no_16bit_wrap_witness :
    oldwin 0 0 = 0 ∧ tcp_maxrcvwin ⟨100, 0, 1460⟩ = 65535 ∧
    tcp_get_recvwindow ⟨100, 0, 1460⟩ ⟨50, 50, 1⟩ 65535 true = 65535 ∧
    (2 * 65535) % 65536 = 65534 ∧
    tcp_should_send_recvwindow ⟨100, 0, 1460⟩ ⟨50, 50, 1⟩ 65535 true 0 0 = true ∧
    (32768 ≤ tcp_get_recvwindow ⟨100, 0, 1460⟩ ⟨50, 50, 1⟩ 65535 true - oldwin 0 0 →
      tcp_should_send_recvwindow ⟨100, 0, 1460⟩ ⟨50, 50, 1⟩ 65535 true 0 0 = true) :=
  ⟨by decide, by decide, by decide, by decide, by decide,
    (C32_update_no_16bit_wrap ⟨100, 0, 1460⟩ ⟨50, 50, 1⟩ 65535 true 0 0
      (by decide)).2.2.2.2⟩

/-- C33: when the MSS is `0` or `tcp_maxrcvwin` is `0`,
`tcp_should_send_recvwindow` returns `true` exactly when the new window exceeds
the old window, a growth of one byte included. -/
theorem C33_degenerate_thresholds (cfg : IobConfig) (pool : IobPool) (mss : Nat)
    (qempty : Bool) (rcv_adv rcvseq : Nat)
    (h : mss = 0 ∨ tcp_maxrcvwin cfg = 0) :
    tcp_should_send_recvwindow cfg pool mss qempty rcv_adv rcvseq = true ↔
      oldwin rcv_adv rcvseq < tcp_get_recvwindow cfg pool mss qempty := by
  rw [should_send_iff]
  constructor
  · rintro ⟨hlt, _⟩
    exact hlt
  · intro hlt
    refine ⟨hlt, ?_⟩
    rcases h with h | h
    · right
      subst h
      have h0 : toUInt16 ((0 : Nat) : Int) = 0 := by decide
      rw [h0]
      omega
    · left
      rw [h]
      omega

/-- C33 evaluated with an MSS of `0`: old window `1000`, new window `1001`,
`tcp_maxrcvwin = 60000`; the growth of one byte is advertised, no growth is
not. -/
theorem C33_degenerate_thresholds_witness :
    oldwin 1000 0 = 1000 ∧ tcp_maxrcvwin ⟨60000, 0, 1⟩ = 60000 ∧
    tcp_get_recvwindow ⟨60000, 0, 1⟩ ⟨1001, 1001, 1⟩ 0 true = 1001 ∧
    tcp_should_send_recvwindow ⟨60000, 0, 1⟩ ⟨1001, 1001, 1⟩ 0 true 1000 0 = true ∧
    tcp_should_send_recvwindow ⟨60000, 0, 1⟩ ⟨1000, 1000, 1⟩ 0 true 1000 0 = false ∧
    (tcp_should_send_recvwindow ⟨60000, 0, 1⟩ ⟨1001, 1001, 1⟩ 0 true 1000 0 = true ↔
      oldwin 1000 0 < tcp_get_recvwindow ⟨60000, 0, 1⟩ ⟨1001, 1001, 1⟩ 0 true) :=
  ⟨by decide, by decide, by decide, by decide, by decide,
    C33_degenerate_thresholds ⟨60000, 0, 1⟩ ⟨1001, 1001, 1⟩ 0 true 1000 0 (Or.inl rfl)⟩

end TcpRecvWindow
